import Mathlib

/-!
Verification of the ESP32 x402 / Solana payment client.

This file shallowly embeds the C components of the repository
(Base58 codec, SPL token transaction builder, PDA/ATA derivation,
x402 payment creation, envelope encoding, and the x402 fetch driver)
as executable Lean definitions operating on byte lists, and proves or
refutes the frozen claims about them.

Conventions:
* A C byte buffer is a `List Nat` whose entries are bytes (< 256).
* A C string is a `List Nat` of its character codes (without the
  terminating NUL).
* `esp_err_t` is the inductive `Esp` below; fallible C functions
  returning `esp_err_t` with out-parameters become `Except Esp α`.
* External collaborators (HTTP, JSON-RPC) are modelled as explicit
  environments consumed in program order.
-/

set_option maxRecDepth 100000

namespace SolanaX402

/-- The `esp_err_t` values the embedded code distinguishes. -/
inductive Esp where
  | fail
  | invalid_arg
  | invalid_state
  | no_mem
  deriving DecidableEq, Repr

instance exceptDecEq {ε α : Type} [DecidableEq ε] [DecidableEq α] :
    DecidableEq (Except ε α) := fun x y =>
  match x, y with
  | .ok a, .ok b =>
      if h : a = b then .isTrue (by rw [h])
      else .isFalse (by intro hc; injection hc; contradiction)
  | .error e, .error f =>
      if h : e = f then .isTrue (by rw [h])
      else .isFalse (by intro hc; injection hc; contradiction)
  | .ok _, .error _ => .isFalse (by intro hc; exact Except.noConfusion hc)
  | .error _, .ok _ => .isFalse (by intro hc; exact Except.noConfusion hc)

abbrev Bytes := List Nat

/-- Big-endian value of a digit list (how the C base-conversion loops
consume their input: most significant first). -/
def beVal (base : Nat) (l : List Nat) : Nat :=
  l.foldl (fun a d => a * base + d) 0

/-! ## Base58 codec — embeds `components/base58/base58.c`.

Both `base58_encode` and `base58_decode` run the same in-place
base-conversion loop: a little-endian digit buffer (initially the single
digit 0) is multiplied by the input base and the next input digit is
added, with carries propagated upward and the buffer extended while a
carry remains.  `rsCore` is one pass of the carry propagation over the
existing digits, `rebaseStep` is one full loop iteration (carry
propagation plus the buffer extension, the extension digits being
exactly the base-`outB` digits of the final carry), and `rebase` is the
whole conversion. -/

/-- One carry-propagation pass: for each existing digit `d` the C code
computes `t = carry + d * mulB`, stores `t % outB` and carries
`t / outB` to the next position.  Returns the rewritten digits and the
final carry. -/
def rsCore (mulB outB : Nat) : List Nat → Nat → (List Nat × Nat)
  | [], c => ([], c)
  | d :: ds, c =>
      let t := c + d * mulB
      let r := rsCore mulB outB ds (t / outB)
      (t % outB :: r.1, r.2)

/-- Fuel-driven little-endian digit expansion (the C
`while (carry > 0) { emit carry % base; carry /= base; }` loop),
written with explicit fuel so that it evaluates by kernel reduction. -/
def natDigitsFuel : Nat → Nat → Nat → List Nat
  | 0, _, _ => []
  | fuel + 1, b, n => if n = 0 then [] else n % b :: natDigitsFuel fuel b (n / b)

/-- The little-endian base-`b` digits of `c` (`c` itself is always
enough fuel for any base ≥ 2). -/
def carryDigits (b c : Nat) : List Nat := natDigitsFuel c b c

/-- One iteration of the C conversion loop: propagate the new input
digit through the buffer, then append the base-`outB` digits of the
remaining carry (the C `while (carry > 0)` extension). -/
def rebaseStep (mulB outB : Nat) (ds : List Nat) (dNew : Nat) : List Nat :=
  let r := rsCore mulB outB ds dNew
  r.1 ++ carryDigits outB r.2

/-- The full base conversion: start from the one-digit buffer `[0]`
(the C code starts with `digits_len = 1` over a zeroed buffer) and fold
the input digits through `rebaseStep`. -/
def rebase (mulB outB : Nat) (input : List Nat) : List Nat :=
  input.foldl (rebaseStep mulB outB) [0]

/-- The Bitcoin Base58 alphabet, as character codes
(`"123456789ABCDEFGHJKLMNPQRSTUVWXYZabcdefghijkmnopqrstuvwxyz"`). -/
def BASE58_ALPHABET : List Nat :=
  [49, 50, 51, 52, 53, 54, 55, 56, 57, 65, 66, 67, 68, 69, 70, 71, 72,
   74, 75, 76, 77, 78, 80, 81, 82, 83, 84, 85, 86, 87, 88, 89, 90, 97,
   98, 99, 100, 101, 102, 103, 104, 105, 106, 107, 109, 110, 111, 112,
   113, 114, 115, 116, 117, 118, 119, 120, 121, 122]

/-- The reverse lookup table `BASE58_DECODE_TABLE` from `base58.c`
(256 entries, `-1` marking an invalid character). -/
def BASE58_DECODE_TABLE : List Int :=
  [-1, -1, -1, -1, -1, -1, -1, -1, -1, -1, -1, -1, -1, -1, -1, -1,
   -1, -1, -1, -1, -1, -1, -1, -1, -1, -1, -1, -1, -1, -1, -1, -1,
   -1, -1, -1, -1, -1, -1, -1, -1, -1, -1, -1, -1, -1, -1, -1, -1,
   -1, 0, 1, 2, 3, 4, 5, 6, 7, 8, -1, -1, -1, -1, -1, -1,
   -1, 9, 10, 11, 12, 13, 14, 15, 16, -1, 17, 18, 19, 20, 21, -1,
   22, 23, 24, 25, 26, 27, 28, 29, 30, 31, 32, -1, -1, -1, -1, -1,
   -1, 33, 34, 35, 36, 37, 38, 39, 40, 41, 42, 43, -1, 44, 45, 46,
   47, 48, 49, 50, 51, 52, 53, 54, 55, 56, 57, -1, -1, -1, -1, -1,
   -1, -1, -1, -1, -1, -1, -1, -1, -1, -1, -1, -1, -1, -1, -1, -1,
   -1, -1, -1, -1, -1, -1, -1, -1, -1, -1, -1, -1, -1, -1, -1, -1,
   -1, -1, -1, -1, -1, -1, -1, -1, -1, -1, -1, -1, -1, -1, -1, -1,
   -1, -1, -1, -1, -1, -1, -1, -1, -1, -1, -1, -1, -1, -1, -1, -1,
   -1, -1, -1, -1, -1, -1, -1, -1, -1, -1, -1, -1, -1, -1, -1, -1,
   -1, -1, -1, -1, -1, -1, -1, -1, -1, -1, -1, -1, -1, -1, -1, -1,
   -1, -1, -1, -1, -1, -1, -1, -1, -1, -1, -1, -1, -1, -1, -1, -1,
   -1, -1, -1, -1, -1, -1, -1, -1, -1, -1, -1, -1, -1, -1, -1, -1]

/-- `base58_encode_size` from `base58.c`. -/
def base58_encode_size (input_len : Nat) : Nat :=
  input_len * 138 / 100 + 2

/-- `base58_encode (input, input_len, output, output_size)`.

Returns the encoded character string (`none` on failure).  The C
routine's per-iteration buffer-extension check
(`digits_len >= buffer_size`) fires exactly when the final digit count
would exceed `buffer_size` (the digit count never shrinks), which is
how the overflow guard is rendered here. -/
def base58_encode (input : Bytes) (output_size : Nat) : Option (List Nat) :=
  if input.length = 0 ∨ output_size = 0 then none
  else
    let leading_zeros := (input.takeWhile (fun b => b == 0)).length
    let buffer_size := base58_encode_size input.length
    let digits := rebase 256 58 input
    if buffer_size < digits.length then none
    else
      let final_len := leading_zeros + digits.length
      if output_size < final_len + 1 then none
      else some (List.replicate leading_zeros 49 ++
                 (digits.reverse.map (fun d => BASE58_ALPHABET.getD d 0)))

/-- The character-to-digit conversion inside `base58_decode`'s main
loop: each character is looked up in `BASE58_DECODE_TABLE` and a
negative entry aborts the whole decode (the C loop interleaves this
lookup with the base conversion, failing on the first invalid
character; separating lookup from conversion yields the same result
since the conversion has no other effect). -/
def base58_digits : List Nat → Option (List Nat)
  | [] => some []
  | c :: cs =>
      let v := BASE58_DECODE_TABLE.getD c (-1)
      if v < 0 then none
      else
        match base58_digits cs with
        | none => none
        | some ds => some (v.toNat :: ds)

/-- `base58_decode (input, output, output_len, max_output_len)`.

Returns the decoded bytes together with `*output_len`.  Character
lookup failure (`digit < 0`) aborts the whole decode, as in the C. -/
def base58_decode (input : List Nat) (max_output_len : Nat) :
    Option (Bytes × Nat) :=
  if input.length = 0 then none
  else
    (base58_digits input).bind (fun digits =>
      let leading_ones := (input.takeWhile (fun c => c == 49)).length
      let buffer_size := input.length
      let bytes := rebase 58 256 digits
      if buffer_size < bytes.length then none
      else
        let final_len := leading_ones + bytes.length
        if max_output_len < final_len then none
        else some (List.replicate leading_ones 0 ++ bytes.reverse, final_len))

/-! ## Byte/word helpers -/

/-- Little-endian bytes of `v`, exactly `n` bytes (value taken mod `256^n`);
this is how the C code emits `u64` amounts byte by byte. -/
def leBytes : Nat → Nat → Bytes
  | 0, _ => []
  | n + 1, v => v % 256 :: leBytes n (v / 256)

/-- Little-endian value of a byte list. -/
def leVal : Bytes → Nat
  | [] => 0
  | b :: rest => b + 256 * leVal rest

/-- Big-endian bytes of `v`, exactly `n` bytes. -/
def beBytes : Nat → Nat → Bytes
  | 0, _ => []
  | n + 1, v => beBytes n (v / 256) ++ [v % 256]

/-! ## SHA-2

Modelled from the spec: the repository delegates hashing to
`mbedtls_sha256` (and TweetNaCl's `crypto_hash` is SHA-512), whose
sources are not part of this repository; both implement FIPS 180-4,
which is embedded here directly (word arithmetic as `Nat` mod `2^w`). -/

/-- Rotate a `bits`-wide word right by `n`. -/
def rotr (bits n x : Nat) : Nat :=
  ((x >>> n) ||| (x <<< (bits - n))) % 2 ^ bits

/-- Parameters distinguishing SHA-256 from SHA-512: word width, round
constants, initial state, round count, length-field width, and the
rotation/shift distances of the four sigma functions. -/
structure ShaCfg where
  bits : Nat
  K : List Nat
  H0 : List Nat
  lenBytes : Nat
  blockBytes : Nat
  ls0 : Nat × Nat × Nat
  ls1 : Nat × Nat × Nat
  bs0 : Nat × Nat × Nat
  bs1 : Nat × Nat × Nat

def sha256Cfg : ShaCfg :=
  { bits := 32
    K := [1116352408, 1899447441, 3049323471, 3921009573, 961987163, 1508970993,
          2453635748, 2870763221, 3624381080, 310598401, 607225278, 1426881987,
          1925078388, 2162078206, 2614888103, 3248222580, 3835390401, 4022224774,
          264347078, 604807628, 770255983, 1249150122, 1555081692, 1996064986,
          2554220882, 2821834349, 2952996808, 3210313671, 3336571891, 3584528711,
          113926993, 338241895, 666307205, 773529912, 1294757372, 1396182291,
          1695183700, 1986661051, 2177026350, 2456956037, 2730485921, 2820302411,
          3259730800, 3345764771, 3516065817, 3600352804, 4094571909, 275423344,
          430227734, 506948616, 659060556, 883997877, 958139571, 1322822218,
          1537002063, 1747873779, 1955562222, 2024104815, 2227730452, 2361852424,
          2428436474, 2756734187, 3204031479, 3329325298]
    H0 := [1779033703, 3144134277, 1013904242, 2773480762,
           1359893119, 2600822924, 528734635, 1541459225]
    lenBytes := 8
    blockBytes := 64
    ls0 := (7, 18, 3)
    ls1 := (17, 19, 10)
    bs0 := (2, 13, 22)
    bs1 := (6, 11, 25) }

def sha512Cfg : ShaCfg :=
  { bits := 64
    K := [4794697086780616226, 8158064640168781261, 13096744586834688815, 16840607885511220156,
          4131703408338449720, 6480981068601479193, 10538285296894168987, 12329834152419229976,
          15566598209576043074, 1334009975649890238, 2608012711638119052, 6128411473006802146,
          8268148722764581231, 9286055187155687089, 11230858885718282805, 13951009754708518548,
          16472876342353939154, 17275323862435702243, 1135362057144423861, 2597628984639134821,
          3308224258029322869, 5365058923640841347, 6679025012923562964, 8573033837759648693,
          10970295158949994411, 12119686244451234320, 12683024718118986047, 13788192230050041572,
          14330467153632333762, 15395433587784984357, 489312712824947311, 1452737877330783856,
          2861767655752347644, 3322285676063803686, 5560940570517711597, 5996557281743188959,
          7280758554555802590, 8532644243296465576, 9350256976987008742, 10552545826968843579,
          11727347734174303076, 12113106623233404929, 14000437183269869457, 14369950271660146224,
          15101387698204529176, 15463397548674623760, 17586052441742319658, 1182934255886127544,
          1847814050463011016, 2177327727835720531, 2830643537854262169, 3796741975233480872,
          4115178125766777443, 5681478168544905931, 6601373596472566643, 7507060721942968483,
          8399075790359081724, 8693463985226723168, 9568029438360202098, 10144078919501101548,
          10430055236837252648, 11840083180663258601, 13761210420658862357, 14299343276471374635,
          14566680578165727644, 15097957966210449927, 16922976911328602910, 17689382322260857208,
          500013540394364858, 748580250866718886, 1242879168328830382, 1977374033974150939,
          2944078676154940804, 3659926193048069267, 4368137639120453308, 4836135668995329356,
          5532061633213252278, 6448918945643986474, 6902733635092675308, 7801388544844847127]
    H0 := [7640891576956012808, 13503953896175478587, 4354685564936845355, 11912009170470909681,
           5840696475078001361, 11170449401992604703, 2270897969802886507, 6620516959819538809]
    lenBytes := 16
    blockBytes := 128
    ls0 := (1, 8, 7)
    ls1 := (19, 61, 6)
    bs0 := (28, 34, 39)
    bs1 := (14, 18, 41) }

def shaLs0 (cfg : ShaCfg) (x : Nat) : Nat :=
  rotr cfg.bits cfg.ls0.1 x ^^^ rotr cfg.bits cfg.ls0.2.1 x ^^^ (x >>> cfg.ls0.2.2)

def shaLs1 (cfg : ShaCfg) (x : Nat) : Nat :=
  rotr cfg.bits cfg.ls1.1 x ^^^ rotr cfg.bits cfg.ls1.2.1 x ^^^ (x >>> cfg.ls1.2.2)

def shaBs0 (cfg : ShaCfg) (x : Nat) : Nat :=
  rotr cfg.bits cfg.bs0.1 x ^^^ rotr cfg.bits cfg.bs0.2.1 x ^^^ rotr cfg.bits cfg.bs0.2.2 x

def shaBs1 (cfg : ShaCfg) (x : Nat) : Nat :=
  rotr cfg.bits cfg.bs1.1 x ^^^ rotr cfg.bits cfg.bs1.2.1 x ^^^ rotr cfg.bits cfg.bs1.2.2 x

/-- Group a byte list into 32-bit big-endian words. -/
def words32 : Bytes → List Nat
  | a :: b :: c :: d :: rest =>
      (((a * 256 + b) * 256 + c) * 256 + d) :: words32 rest
  | _ => []

/-- Group a byte list into 64-bit big-endian words. -/
def words64 : Bytes → List Nat
  | a :: b :: c :: d :: e :: f :: g :: h :: rest =>
      (((((((a * 256 + b) * 256 + c) * 256 + d) * 256 + e) * 256 + f) * 256 + g)
        * 256 + h) :: words64 rest
  | _ => []

def shaWords (cfg : ShaCfg) (l : Bytes) : List Nat :=
  if cfg.bits = 32 then words32 l else words64 l

/-- FIPS 180-4 message padding: `0x80`, zeros, then the bit length. -/
def shaPad (cfg : ShaCfg) (msg : Bytes) : Bytes :=
  let len := msg.length
  let padlen := (cfg.blockBytes - (len + 1 + cfg.lenBytes) % cfg.blockBytes)
    % cfg.blockBytes
  msg ++ [0x80] ++ List.replicate padlen 0 ++ beBytes cfg.lenBytes (8 * len)

/-- Message-schedule extension: `k` more words, keeping the words most
recent first. -/
def shaSchedExt (cfg : ShaCfg) : Nat → List Nat → List Nat
  | 0, wrev => wrev.reverse
  | k + 1, wrev =>
      let nw := (wrev.getD 15 0 + shaLs0 cfg (wrev.getD 14 0) + wrev.getD 6 0 +
        shaLs1 cfg (wrev.getD 1 0)) % 2 ^ cfg.bits
      shaSchedExt cfg k (nw :: wrev)

def shaSchedule (cfg : ShaCfg) (ws : List Nat) : List Nat :=
  shaSchedExt cfg (cfg.K.length - 16) ws.reverse

/-- One compression round on the state `[a,b,c,d,e,f,g,h]`. -/
def shaRound (cfg : ShaCfg) (st : List Nat) (kw : Nat × Nat) : List Nat :=
  match st with
  | [a, b, c, d, e, f, g, h] =>
      let m := 2 ^ cfg.bits
      let ch := (e &&& f) ^^^ ((e ^^^ (m - 1)) &&& g)
      let t1 := (h + shaBs1 cfg e + ch + kw.1 + kw.2) % m
      let maj := (a &&& b) ^^^ (a &&& c) ^^^ (b &&& c)
      let t2 := (shaBs0 cfg a + maj) % m
      [(t1 + t2) % m, a, b, c, (d + t1) % m, e, f, g]
  | st => st

/-- Compress one 16-word block into the chaining state. -/
def shaCompress (cfg : ShaCfg) (st : List Nat) (block : List Nat) : List Nat :=
  let st' := (cfg.K.zip (shaSchedule cfg block)).foldl (shaRound cfg) st
  List.zipWith (fun x y => (x + y) % 2 ^ cfg.bits) st st'

/-- Process the word stream block by block (fuel = word count). -/
def shaBlocks (cfg : ShaCfg) : Nat → List Nat → List Nat → List Nat
  | 0, _, st => st
  | fuel + 1, ws, st =>
      match ws with
      | [] => st
      | _ => shaBlocks cfg fuel (ws.drop 16) (shaCompress cfg st (ws.take 16))

def shaHash (cfg : ShaCfg) (msg : Bytes) : Bytes :=
  let ws := shaWords cfg (shaPad cfg msg)
  let fin := shaBlocks cfg ws.length ws cfg.H0
  fin.foldr (fun w acc => beBytes (cfg.bits / 8) w ++ acc) []

/-- SHA-256 (the static `sha256` helper in `spl_token.c`, which wraps
`mbedtls_sha256`). -/
def sha256 (msg : Bytes) : Bytes := shaHash sha256Cfg msg

/-- SHA-512 (TweetNaCl's `crypto_hash`, used inside Ed25519 signing). -/
def sha512 (msg : Bytes) : Bytes := shaHash sha512Cfg msg

/-! ## Ed25519

Modelled from the spec: §4.2 requires `sign(secret[64], message)` to
produce a detached Ed25519 signature (TweetNaCl's `crypto_sign` over a
64-byte seed-plus-public-key secret) and `is_on_curve(bytes[32])` to be
a true point decompression (TweetNaCl's `unpackneg`).  TweetNaCl itself
is a vendored library whose source is not in the repository; its
mathematics is embedded here over `Nat` mod `2^255 - 19`. -/

/-- The Ed25519 field prime `2^255 - 19`. -/
def P25519 : Nat := 2 ^ 255 - 19

/-- The Edwards curve constant `d = -121665/121666 mod p`
(TweetNaCl's `D`). -/
def ED_D : Nat :=
  37095705934669439343138083508754565189542113879843219016388785533085940283555

/-- A square root of `-1` mod `p` (TweetNaCl's `sqrtm1`). -/
def ED_SQRTM1 : Nat :=
  19681161376707505956807079304988542015446066515923890162744021073123829784752

/-- The group order `l = 2^252 + 27742317777372353535851937790883648493`. -/
def ED_L : Nat :=
  7237005577332262213973186563042994240857116359379907606001950938285454250989

/-- Modular exponentiation by binary fuel recursion (kernel-reducible). -/
def powModFuel : Nat → Nat → Nat → Nat → Nat
  | 0, _, _, m => 1 % m
  | fuel + 1, b, e, m =>
      if e = 0 then 1 % m
      else
        let h := powModFuel fuel ((b * b) % m) (e / 2) m
        if e % 2 = 1 then (h * (b % m)) % m else h

def powMod (b e m : Nat) : Nat := powModFuel 300 b e m

/-- A point in extended twisted-Edwards coordinates `(X, Y, Z, T)`
(TweetNaCl's `gf p[4]`). -/
abbrev EdPoint := Nat × Nat × Nat × Nat

/-- The neutral element (TweetNaCl `gf0/gf1` initialisation). -/
def edZero : EdPoint := (0, 1, 1, 0)

/-- The Ed25519 base point. -/
def edBase : EdPoint :=
  (15112221349535400772501151409588531511454012693041857206046113283949847762202,
   46316835694926478169428394003475163141307993866256225615783033603165251855960,
   1,
   15112221349535400772501151409588531511454012693041857206046113283949847762202 *
     46316835694926478169428394003475163141307993866256225615783033603165251855960 %
     P25519)

/-- Unified Edwards point addition (TweetNaCl's `add`). -/
def edAdd (p q : EdPoint) : EdPoint :=
  let pp := P25519
  let (x1, y1, z1, t1) := p
  let (x2, y2, z2, t2) := q
  let a := ((y1 + pp - x1 % pp) % pp) * ((y2 + pp - x2 % pp) % pp) % pp
  let b := ((y1 + x1) % pp) * ((y2 + x2) % pp) % pp
  let c := 2 * t1 % pp * t2 % pp * ED_D % pp
  let dd := 2 * z1 % pp * z2 % pp
  let e := (b + pp - a) % pp
  let f := (dd + pp - c) % pp
  let g := (dd + c) % pp
  let h := (b + a) % pp
  (e * f % pp, g * h % pp, f * g % pp, e * h % pp)

/-- Double-and-add scalar multiplication, most significant bit first
(TweetNaCl's constant-time ladder computes the same group element). -/
def edLadder (base : EdPoint) (s : Nat) : Nat → EdPoint → EdPoint
  | 0, acc => acc
  | i + 1, acc =>
      let acc2 := edAdd acc acc
      edLadder base s i (if (s >>> i) &&& 1 = 1 then edAdd acc2 base else acc2)

def edScalarMul (s : Nat) (base : EdPoint) : EdPoint :=
  edLadder base s 256 edZero

/-- Compress a point to 32 bytes: the `y` coordinate little-endian with
the parity of `x` in the top bit (TweetNaCl's `pack`). -/
def edPack (p : EdPoint) : Bytes :=
  let pp := P25519
  let (x, y, z, _) := p
  let zi := powMod z (pp - 2) pp
  let xa := x * zi % pp
  let ya := y * zi % pp
  leBytes 32 (ya + (xa % 2) * 2 ^ 255)

/-- Detached Ed25519 signature over `msg` with a TweetNaCl-format
64-byte secret (32-byte seed followed by the 32-byte public key); the
first 64 bytes of `crypto_sign`'s output. -/
def ed25519_sign (secret : Bytes) (msg : Bytes) : Bytes :=
  let dd := sha512 (secret.take 32)
  let a := (leVal (dd.take 32) &&& (2 ^ 255 - 8)) ||| 2 ^ 254
  let r := leVal (sha512 (dd.drop 32 ++ msg)) % ED_L
  let rb := edPack (edScalarMul r edBase)
  let pk := (secret.drop 32).take 32
  let h := leVal (sha512 (rb ++ pk ++ msg)) % ED_L
  let s := (r + h * a) % ED_L
  rb ++ leBytes 32 s

/-- The curve membership test behind `is_on_curve` in `spl_token.c`:
TweetNaCl's `unpackneg` attempts the point decompression
`x = sqrt((y^2-1)/(d y^2+1))` and reports failure when neither root
candidate squares back to the required value.  `is_on_curve` returns
`true` exactly when `unpackneg` returns 0. -/
def is_on_curve (bytes : Bytes) : Bool :=
  let pp := P25519
  let y := leVal (bytes.take 32) % 2 ^ 255
  let ys := y * y % pp
  let num := (ys + pp - 1) % pp
  let den := (ED_D * ys + 1) % pp
  let t := powMod (num * powMod den 7 pp % pp) ((pp - 5) / 8) pp
  let x := t * num % pp * den % pp * den % pp * den % pp
  let chk := x * x % pp * den % pp
  let x2 := if chk ≠ num then x * ED_SQRTM1 % pp else x
  let chk2 := x2 * x2 % pp * den % pp
  chk2 == num

/-! ## SPL token component — embeds the current `spl_token.c`
(the variant whose builder takes an explicit fee payer and token
program, which is the one the driver in `x402_client.h` links
against; the repository also carries a stale earlier copy). -/

/-- `SPL_TOKEN_PROGRAM_ID` (TokenkegQfeZyiNwAJbNbGKPFXCWuBvf9Ss623VQ5DA). -/
def SPL_TOKEN_PROGRAM_ID : Bytes :=
  [0x06, 0xdd, 0xf6, 0xe1, 0xd7, 0x65, 0xa1, 0x93,
   0xd9, 0xcb, 0xe1, 0x46, 0xce, 0xeb, 0x79, 0xac,
   0x1c, 0xb4, 0x85, 0xed, 0x5f, 0x5b, 0x37, 0x91,
   0x3a, 0x8c, 0xf5, 0x85, 0x7e, 0xff, 0x00, 0xa9]

/-- `SPL_ASSOCIATED_TOKEN_PROGRAM_ID`
(ATokenGPvbdGVxr1b2hvZbsiqW5xWH25efTNsLJA8knL). -/
def SPL_ASSOCIATED_TOKEN_PROGRAM_ID : Bytes :=
  [0x8c, 0x97, 0x25, 0x8f, 0x4e, 0x24, 0x89, 0xf1,
   0xbb, 0x3d, 0x10, 0x29, 0x14, 0x8e, 0x0d, 0x83,
   0x0b, 0x5a, 0x13, 0x99, 0xda, 0xff, 0x10, 0x84,
   0x04, 0x8e, 0x7b, 0xd8, 0xdb, 0xe9, 0xf8, 0x59]

/-- `USDC_DEVNET_MINT` of the current `spl_token.c`
(4zMMC9srt5Ri5X14GAgXhaHii3GnPAEERYPJgZJDncDU). -/
def USDC_DEVNET_MINT : Bytes :=
  [0x36, 0xc9, 0x1e, 0x90, 0xde, 0x9e, 0x7c, 0xd0,
   0x5f, 0xe0, 0x77, 0xe4, 0x35, 0xd1, 0x96, 0xe1,
   0xd9, 0x7d, 0x55, 0x34, 0x5e, 0x6b, 0x08, 0x25,
   0xf8, 0x86, 0xf9, 0xc9, 0x60, 0x23, 0x57, 0x69]

/-- `SPL_TOKEN_TRANSFER_INSTRUCTION` (opcode 3). -/
def SPL_TOKEN_TRANSFER_INSTRUCTION : Nat := 3

/-- `USDC_DECIMALS` (6). -/
def USDC_DECIMALS : Nat := 6

/-- The string `"ProgramDerivedAddress"` appended to the PDA hash
input. -/
def PDA_MARKER : Bytes :=
  [80, 114, 111, 103, 114, 97, 109, 68, 101, 114, 105, 118, 101,
   100, 65, 100, 100, 114, 101, 115, 115]

/-- One trial of the PDA search: SHA-256 of
`seeds ∥ bump ∥ program_id ∥ "ProgramDerivedAddress"`. -/
def pda_hash (seeds : List Bytes) (program_id : Bytes) (bump : Nat) : Bytes :=
  sha256 (seeds.flatten ++ [bump] ++ program_id ++ PDA_MARKER)

/-- The bump loop of `find_program_address` (fuel counts the remaining
bump values; called with 256 it tries bumps 255, 254, …, 0 and returns
the first whose hash is off the curve, `ESP_FAIL` if none is). -/
def fpaLoop (seeds : List Bytes) (program_id : Bytes) :
    Nat → Except Esp (Bytes × Nat)
  | 0 => .error .fail
  | b + 1 =>
      let hash := pda_hash seeds program_id b
      if is_on_curve hash then fpaLoop seeds program_id b
      else .ok (hash, b)

/-- `find_program_address` from the current `spl_token.c`: the seed
buffer is 1024 bytes (copying the seeds fails with `ESP_ERR_NO_MEM`
once the running offset would exceed it, i.e. exactly when the seeds
total more than 1024 bytes), then bumps are tried from 255 downward
and the first off-curve SHA-256 result is the PDA. -/
def find_program_address (seeds : List Bytes) (program_id : Bytes) :
    Except Esp (Bytes × Nat) :=
  if 1024 < (seeds.flatten).length then .error .no_mem
  else fpaLoop seeds program_id 256

/-- `spl_token_get_associated_token_address_with_program`: the ATA is
the PDA of the associated-token program over the seeds
`[wallet, token_program, mint]`. -/
def spl_token_get_associated_token_address_with_program
    (wallet_pubkey mint_pubkey token_program_id : Bytes) :
    Except Esp Bytes :=
  (find_program_address [wallet_pubkey, token_program_id, mint_pubkey]
    SPL_ASSOCIATED_TOKEN_PROGRAM_ID).map (·.1)

/-- `spl_token_build_transfer_instruction`: one opcode byte `3`
followed by the 64-bit little-endian amount. -/
def spl_token_build_transfer_instruction (amount : Nat)
    (max_instruction_len : Nat) : Except Esp Bytes :=
  if max_instruction_len < 1 + 8 then .error .no_mem
  else .ok (SPL_TOKEN_TRANSFER_INSTRUCTION :: leBytes 8 amount)

/-- One guarded buffer append (each `if (offset + n > max_tx_len)
return ESP_ERR_NO_MEM;` / `memcpy` pair of the C builder). -/
def putBytes (max : Nat) (buf : Bytes) (bs : Bytes) : Except Esp Bytes :=
  if max < buf.length + bs.length then .error .no_mem
  else .ok (buf ++ bs)

/-- `spl_token_create_transfer_transaction` (current variant): derive
both ATAs with the given token program, build the 9-byte transfer
instruction, then serialise the two-signature legacy transaction. -/
def spl_token_create_transfer_transaction
    (fee_payer from_wallet to_wallet mint token_program_id : Bytes)
    (amount : Nat) (recent_blockhash : Bytes) (max_tx_len : Nat) :
    Except Esp Bytes := do
  let source_ata ← spl_token_get_associated_token_address_with_program
    from_wallet mint token_program_id
  let dest_ata ← spl_token_get_associated_token_address_with_program
    to_wallet mint token_program_id
  let instruction_data ← spl_token_build_transfer_instruction amount 32
  let tx ← putBytes max_tx_len [] [2]                    -- signature count
  let tx ← putBytes max_tx_len tx (List.replicate 64 0)  -- signature slot 0
  let tx ← putBytes max_tx_len tx (List.replicate 64 0)  -- signature slot 1
  let tx ← putBytes max_tx_len tx [2, 1, 1]              -- message header
  let tx ← putBytes max_tx_len tx [5]                    -- account count
  let tx ← putBytes max_tx_len tx fee_payer              -- account 0
  let tx ← putBytes max_tx_len tx from_wallet            -- account 1
  let tx ← putBytes max_tx_len tx source_ata             -- account 2
  let tx ← putBytes max_tx_len tx dest_ata               -- account 3
  let tx ← putBytes max_tx_len tx token_program_id       -- account 4
  let tx ← putBytes max_tx_len tx recent_blockhash
  let tx ← putBytes max_tx_len tx [1]                    -- instruction count
  let tx ← putBytes max_tx_len tx [4]                    -- program index
  let tx ← putBytes max_tx_len tx [3, 2, 3, 1]           -- account indices
  let tx ← putBytes max_tx_len tx
    (instruction_data.length :: instruction_data)        -- data length + data
  return tx

/-! ## libc numeric parsing models -/

/-- C `isspace` for the default locale. -/
def isSpaceC (c : Nat) : Bool := c == 32 || (9 ≤ c && c ≤ 13)

/-- C `isdigit`. -/
def isDigitC (c : Nat) : Bool := 48 ≤ c && c ≤ 57

/-- Modelled from the spec: libc `strtoull(s, &endptr, 10)` (C17
7.22.1.4).  Skips leading white space and an optional sign, consumes
decimal digits, saturates at `ULLONG_MAX` on overflow, and negates in
the return type for a minus sign.  Returns the value together with the
number of characters consumed (0 when no digits were found, in which
case `endptr == s`). -/
def strtoull10 (s : Bytes) : Nat × Nat :=
  let ws := (s.takeWhile isSpaceC).length
  let rest := s.drop ws
  let signLen :=
    match rest with
    | c :: _ => if c == 45 || c == 43 then 1 else 0
    | [] => 0
  let neg :=
    match rest with
    | c :: _ => c == 45
    | [] => false
  let digs := (rest.drop signLen).takeWhile isDigitC
  if digs.length = 0 then (0, 0)
  else
    let n := beVal 10 (digs.map (fun c => c - 48))
    let raw := min n (2 ^ 64 - 1)
    let v := if neg then (2 ^ 64 - raw) % 2 ^ 64 else raw
    (v, ws + signLen + digs.length)

/-- Modelled from the spec: libc `atof` (= `strtod`, C17 7.22.1.3) on
decimal forms, with the value kept exact as a signed
numerator/denominator pair (denominator positive; the claims settled
against this model do not depend on `double` rounding; the hex,
infinity and nan forms are not modelled).  No conversion yields 0. -/
def atofQ (s : Bytes) : Int × Nat :=
  let rest := s.drop (s.takeWhile isSpaceC).length
  let neg :=
    match rest with
    | c :: _ => c == 45
    | [] => false
  let rest := if (rest.head?.map (fun c => c == 45 || c == 43)).getD false
    then rest.drop 1 else rest
  let intDigs := rest.takeWhile isDigitC
  let rest2 := rest.drop intDigs.length
  let fracDigs :=
    if rest2.head? == some 46 then (rest2.drop 1).takeWhile isDigitC else []
  let rest3 :=
    if rest2.head? == some 46 then (rest2.drop 1).drop fracDigs.length else rest2
  if intDigs.length = 0 ∧ fracDigs.length = 0 then (0, 1)
  else
    let mantNum : Nat :=
      beVal 10 (intDigs.map (fun c => c - 48)) * 10 ^ fracDigs.length +
        beVal 10 (fracDigs.map (fun c => c - 48))
    let mantDen : Nat := 10 ^ fracDigs.length
    let ep : Nat × Nat :=
      if rest3.head? == some 101 ∨ rest3.head? == some 69 then
        let er := rest3.drop 1
        let eneg :=
          match er with
          | c :: _ => c == 45
          | [] => false
        let er := if (er.head?.map (fun c => c == 45 || c == 43)).getD false
          then er.drop 1 else er
        let eDigs := er.takeWhile isDigitC
        if eDigs.length = 0 then (1, 1)
        else
          let e := beVal 10 (eDigs.map (fun c => c - 48))
          if eneg then (1, 10 ^ e) else (10 ^ e, 1)
      else (1, 1)
    ((if neg then -1 else 1) * ((mantNum * ep.1 : Nat) : Int), mantDen * ep.2)

/-- `spl_token_parse_usd_amount` from the current `spl_token.c`: skip
an optional leading dollar sign, `atof` the rest, multiply by
`10^decimals` accumulated in a `uint64_t` (wrapping mod `2^64`), cast
to `uint64_t` (truncation), and always report `ESP_OK`.  The C cast of
an out-of-range or negative `double` to `uint64_t` is undefined
behaviour; the model returns 0 there, which no settled claim depends
on. -/
def spl_token_parse_usd_amount (amount_str : Bytes) (decimals : Nat) :
    Except Esp Nat :=
  let str := if amount_str.head? == some 36 then amount_str.drop 1 else amount_str
  let v := atofQ str
  let multiplier := (List.range decimals).foldl (fun m _ => m * 10 % 2 ^ 64) 1
  let num := v.1 * (multiplier : Int)
  let den := v.2
  let amount : Nat :=
    if num < 0 ∨ (2 ^ 64 : Int) * den ≤ num then 0
    else (num.tdiv den).toNat
  .ok amount

/-! ## Wallet — embeds `solana_wallet.c` -/

/-- `solana_wallet_t`: the 64-byte expanded secret and the public key
copied from its trailing 32 bytes by `solana_wallet_from_keypair`. -/
structure solana_wallet where
  secret_key : Bytes
  public_key : Bytes

/-- `solana_wallet_from_keypair` (the RPC handle plays no part in the
embedded flows). -/
def solana_wallet_from_keypair (secret_key : Bytes) : solana_wallet :=
  { secret_key := secret_key.take 64, public_key := (secret_key.take 64).drop 32 }

/-- `solana_wallet_get_pubkey`. -/
def solana_wallet_get_pubkey (w : solana_wallet) : Except Esp Bytes :=
  .ok w.public_key

/-- `solana_wallet_sign`: TweetNaCl `crypto_sign` and extraction of the
leading 64 signature bytes (the signing itself cannot fail). -/
def solana_wallet_sign (w : solana_wallet) (message : Bytes) :
    Except Esp Bytes :=
  .ok (ed25519_sign w.secret_key message)

/-! ## JSON — modelled from the spec: the repository delegates JSON
handling to the vendored cJSON library (not part of this repository);
its value model, case-insensitive object lookup, compact printing and
parsing are embedded here.  Numbers are kept as integers (cJSON stores
doubles; every numeric field the embedded flows read or write is
integral, and the model truncates fractional parse results). -/

inductive Json where
  | null
  | bool (b : Bool)
  | num (n : Int)
  | str (s : Bytes)
  | arr (items : List Json)
  | obj (fields : List (Bytes × Json))

/-- ASCII lower-casing, for cJSON's case-insensitive key lookup. -/
def asciiLower (c : Nat) : Nat := if 65 ≤ c ∧ c ≤ 90 then c + 32 else c

def strCaseEq (a b : Bytes) : Bool :=
  a.map asciiLower == b.map asciiLower

/-- `cJSON_GetObjectItem` (case-insensitive; `NULL` in, `NULL` out). -/
def jGet (j : Option Json) (key : Bytes) : Option Json :=
  j.bind fun j =>
    match j with
    | .obj fields => (fields.find? (fun f => strCaseEq f.1 key)).map (·.2)
    | _ => none

/-- `cJSON_IsString` + `valuestring` access. -/
def jStr (j : Option Json) : Option Bytes :=
  j.bind fun j => match j with | .str s => some s | _ => none

/-- `cJSON_IsArray` + element list access. -/
def jArr (j : Option Json) : Option (List Json) :=
  j.bind fun j => match j with | .arr l => some l | _ => none

/-- `cJSON_IsBool` + truth value. -/
def jBool (j : Option Json) : Option Bool :=
  j.bind fun j => match j with | .bool b => some b | _ => none

/-- Decimal digits of a natural number. -/
def natDec (n : Nat) : Bytes :=
  if n = 0 then [48] else (carryDigits 10 n).reverse.map (· + 48)

/-- Decimal rendering of an integer. -/
def intDec (n : Int) : Bytes :=
  if n < 0 then 45 :: natDec n.natAbs else natDec n.toNat

def hexDigit (n : Nat) : Nat := if n < 10 then 48 + n else 87 + (n - 10)

/-- cJSON's string escaping: quote, backslash, the short control
escapes, and `\u00xx` for remaining control characters. -/
def jsonEscapeChar (c : Nat) : Bytes :=
  if c == 34 then [92, 34]
  else if c == 92 then [92, 92]
  else if c == 8 then [92, 98]
  else if c == 12 then [92, 102]
  else if c == 10 then [92, 110]
  else if c == 13 then [92, 114]
  else if c == 9 then [92, 116]
  else if c < 32 then [92, 117, 48, 48, hexDigit (c / 16), hexDigit (c % 16)]
  else [c]

def jsonPrintStr (s : Bytes) : Bytes :=
  34 :: (s.flatMap jsonEscapeChar) ++ [34]

/-- Comma-interleaved concatenation. -/
def joinComma : List Bytes → Bytes
  | [] => []
  | [x] => x
  | x :: rest => x ++ 44 :: joinComma rest

/-- `cJSON_PrintUnformatted`, fuel-recursive over nesting depth so it
evaluates by kernel reduction (a fixed fuel of 100 covers every value
the embedded flows construct). -/
def printJsonFuel : Nat → Json → Bytes
  | 0, _ => []
  | fuel + 1, j =>
      match j with
      | .null => [110, 117, 108, 108]
      | .bool true => [116, 114, 117, 101]
      | .bool false => [102, 97, 108, 115, 101]
      | .num n => intDec n
      | .str s => jsonPrintStr s
      | .arr items => 91 :: joinComma (items.map (printJsonFuel fuel)) ++ [93]
      | .obj fields => 123 :: joinComma (fields.map (fun kv =>
          jsonPrintStr kv.1 ++ 58 :: printJsonFuel fuel kv.2)) ++ [125]

def printJson (j : Json) : Bytes := printJsonFuel 100 j

/-- String-body scanner of the parser: consumes up to the closing
quote, decoding cJSON's escapes (`\uXXXX` is not modelled; no embedded
flow feeds it). -/
def parseJString : Bytes → Option (Bytes × Bytes)
  | [] => none
  | 34 :: rest => some ([], rest)
  | 92 :: e :: rest =>
      let c? : Option Nat :=
        if e == 34 then some 34
        else if e == 92 then some 92
        else if e == 47 then some 47
        else if e == 98 then some 8
        else if e == 102 then some 12
        else if e == 110 then some 10
        else if e == 114 then some 13
        else if e == 116 then some 9
        else none
      match c? with
      | none => none
      | some c => (parseJString rest).map (fun r => (c :: r.1, r.2))
  | c :: rest => (parseJString rest).map (fun r => (c :: r.1, r.2))

/-- Number scanner: sign, digits, optional fraction and exponent; the
value (kept exact as a numerator/denominator pair) is truncated toward
zero to an integer, as cJSON
stores a `double` that the readers embedded here truncate. -/
def parseJNum (s : Bytes) : Option (Int × Bytes) :=
  let neg := s.head? == some 45
  let s1 := if neg then s.drop 1 else s
  let intDigs := s1.takeWhile isDigitC
  if intDigs.length = 0 then none
  else
    let s2 := s1.drop intDigs.length
    let fracDigs :=
      if s2.head? == some 46 then (s2.drop 1).takeWhile isDigitC else []
    let s3 :=
      if s2.head? == some 46 then (s2.drop 1).drop fracDigs.length else s2
    let hasExp := s3.head? == some 101 ∨ s3.head? == some 69
    let e1 := if hasExp then s3.drop 1 else s3
    let eneg := hasExp ∧ e1.head? == some 45
    let e2 := if hasExp ∧ (e1.head? == some 45 ∨ e1.head? == some 43)
      then e1.drop 1 else e1
    let eDigs := if hasExp then e2.takeWhile isDigitC else []
    let s4 := if hasExp then e2.drop eDigs.length else s3
    let mantNum : Nat :=
      beVal 10 (intDigs.map (fun c => c - 48)) * 10 ^ fracDigs.length +
        beVal 10 (fracDigs.map (fun c => c - 48))
    let eVal := beVal 10 (eDigs.map (fun c => c - 48))
    let num : Nat := if eneg then mantNum else mantNum * 10 ^ eVal
    let den : Nat := if eneg then 10 ^ fracDigs.length * 10 ^ eVal
      else 10 ^ fracDigs.length
    let t : Int := (num / den : Nat)
    some ((if neg then -t else t), s4)

/-- Parser mode: a value, or the tail of an array or object being
accumulated. -/
inductive PMode where
  | value
  | arrTail (acc : List Json)
  | objTail (acc : List (Bytes × Json))

/-- The recursive heart of the cJSON parser, structural on fuel so it
evaluates by kernel reduction; whitespace is any character ≤ 32 as in
cJSON's `buffer_skip_whitespace`. -/
def parseJ : Nat → PMode → Bytes → Option (Json × Bytes)
  | 0, _, _ => none
  | fuel + 1, .value, s =>
      let s := s.dropWhile (fun c => c ≤ 32)
      match s with
      | 110 :: 117 :: 108 :: 108 :: rest => some (.null, rest)
      | 116 :: 114 :: 117 :: 101 :: rest => some (.bool true, rest)
      | 102 :: 97 :: 108 :: 115 :: 101 :: rest => some (.bool false, rest)
      | 34 :: rest => (parseJString rest).map (fun r => (.str r.1, r.2))
      | 91 :: rest =>
          let r2 := rest.dropWhile (fun c => c ≤ 32)
          match r2 with
          | 93 :: rest2 => some (.arr [], rest2)
          | _ => parseJ fuel (.arrTail []) rest
      | 123 :: rest =>
          let r2 := rest.dropWhile (fun c => c ≤ 32)
          match r2 with
          | 125 :: rest2 => some (.obj [], rest2)
          | _ => parseJ fuel (.objTail []) rest
      | c :: _ =>
          if c == 45 ∨ isDigitC c then
            (parseJNum s).map (fun r => (.num r.1, r.2))
          else none
      | [] => none
  | fuel + 1, .arrTail acc, s =>
      match parseJ fuel .value s with
      | none => none
      | some (v, rest) =>
          let r2 := rest.dropWhile (fun c => c ≤ 32)
          match r2 with
          | 44 :: rest2 => parseJ fuel (.arrTail (acc ++ [v])) rest2
          | 93 :: rest2 => some (.arr (acc ++ [v]), rest2)
          | _ => none
  | fuel + 1, .objTail acc, s =>
      let s := s.dropWhile (fun c => c ≤ 32)
      match s with
      | 34 :: rest =>
          match parseJString rest with
          | none => none
          | some (key, rest2) =>
              let r3 := rest2.dropWhile (fun c => c ≤ 32)
              match r3 with
              | 58 :: rest3 =>
                  match parseJ fuel .value rest3 with
                  | none => none
                  | some (v, rest4) =>
                      let r5 := rest4.dropWhile (fun c => c ≤ 32)
                      match r5 with
                      | 44 :: rest5 => parseJ fuel (.objTail (acc ++ [(key, v)])) rest5
                      | 125 :: rest5 => some (.obj (acc ++ [(key, v)]), rest5)
                      | _ => none
              | _ => none
      | _ => none

/-- `cJSON_Parse`: parse one value; trailing bytes are ignored (cJSON
only checks them in `ParseWithOpts`). -/
def cJSON_Parse (s : Bytes) : Option Json :=
  (parseJ (2 * s.length + 8) .value s).map (·.1)

/-! ## Base64 — modelled from the spec: `mbedtls_base64_encode` /
`mbedtls_base64_decode` (standard alphabet, `=` padding, strict
character set), used by the envelope codec in `x402_encoding.c`. -/

/-- The standard Base64 alphabet as character codes. -/
def B64_ALPHABET : Bytes :=
  [65, 66, 67, 68, 69, 70, 71, 72, 73, 74, 75, 76, 77, 78, 79, 80, 81,
   82, 83, 84, 85, 86, 87, 88, 89, 90, 97, 98, 99, 100, 101, 102, 103,
   104, 105, 106, 107, 108, 109, 110, 111, 112, 113, 114, 115, 116, 117,
   118, 119, 120, 121, 122, 48, 49, 50, 51, 52, 53, 54, 55, 56, 57, 43, 47]

def b64chr (n : Nat) : Nat := B64_ALPHABET.getD n 65

def b64dval (c : Nat) : Option Nat := B64_ALPHABET.indexOf? c

/-- Base64 encoding of a byte stream (three bytes to four characters,
with `=` padding). -/
def b64encode : Bytes → Bytes
  | [] => []
  | [a] => [b64chr (a / 4), b64chr (a % 4 * 16), 61, 61]
  | [a, b] => [b64chr (a / 4), b64chr (a % 4 * 16 + b / 16), b64chr (b % 16 * 4), 61]
  | a :: b :: c :: rest =>
      b64chr (a / 4) :: b64chr (a % 4 * 16 + b / 16) ::
      b64chr (b % 16 * 4 + c / 64) :: b64chr (c % 64) ::
      b64encode rest

/-- Base64 decoding: four characters to three bytes, `=` padding only
at the very end, any character outside the alphabet rejected. -/
def b64decode : Bytes → Option Bytes
  | [] => some []
  | a :: b :: c :: d :: rest =>
      match b64dval a, b64dval b with
      | some va, some vb =>
          if d == 61 then
            if rest.length ≠ 0 then none
            else if c == 61 then some [va * 4 + vb / 16]
            else match b64dval c with
              | some vc => some [va * 4 + vb / 16, vb % 16 * 16 + vc / 4]
              | none => none
          else
            match b64dval c, b64dval d with
            | some vc, some vd =>
                (b64decode rest).map (fun tail =>
                  (va * 4 + vb / 16) :: (vb % 16 * 16 + vc / 4) ::
                  (vc % 4 * 64 + vd) :: tail)
            | _, _ => none
      | _, _ => none
  | _ => none

/-! ## String constants used by the x402 component -/

/-- The string `"accepts"`. -/
def kAccepts : Bytes := [97, 99, 99, 101, 112, 116, 115]

/-- The string `"payTo"`. -/
def kPayTo : Bytes := [112, 97, 121, 84, 111]

/-- The string `"network"`. -/
def kNetwork : Bytes := [110, 101, 116, 119, 111, 114, 107]

/-- The string `"asset"`. -/
def kAsset : Bytes := [97, 115, 115, 101, 116]

/-- The string `"maxAmountRequired"`. -/
def kMaxAmountRequired : Bytes :=
  [109, 97, 120, 65, 109, 111, 117, 110, 116, 82, 101, 113, 117, 105,
   114, 101, 100]

/-- The string `"extra"`. -/
def kExtra : Bytes := [101, 120, 116, 114, 97]

/-- The string `"feePayer"`. -/
def kFeePayer : Bytes := [102, 101, 101, 80, 97, 121, 101, 114]

/-- The string `"kinds"`. -/
def kKinds : Bytes := [107, 105, 110, 100, 115]

/-- The string `"x402Version"`. -/
def kX402Version : Bytes := [120, 52, 48, 50, 86, 101, 114, 115, 105, 111, 110]

/-- The string `"scheme"`. -/
def kScheme : Bytes := [115, 99, 104, 101, 109, 101]

/-- The string `"payload"`. -/
def kPayload : Bytes := [112, 97, 121, 108, 111, 97, 100]

/-- The string `"transaction"`. -/
def kTransaction : Bytes := [116, 114, 97, 110, 115, 97, 99, 116, 105, 111, 110]

/-- The string `"success"`. -/
def kSuccess : Bytes := [115, 117, 99, 99, 101, 115, 115]

/-- The string `"result"`. -/
def kResult : Bytes := [114, 101, 115, 117, 108, 116]

/-- The string `"value"`. -/
def kValue : Bytes := [118, 97, 108, 117, 101]

/-- The string `"owner"`. -/
def kOwner : Bytes := [111, 119, 110, 101, 114]

/-- The string `"blockhash"`. -/
def kBlockhash : Bytes := [98, 108, 111, 99, 107, 104, 97, 115, 104]

/-- The scheme string `"exact"` (`X402_SCHEME_EXACT`). -/
def sExact : Bytes := [101, 120, 97, 99, 116]

/-- The network string `"solana-devnet"` (`X402_NETWORK_SOLANA_DEVNET`). -/
def sSolanaDevnet : Bytes :=
  [115, 111, 108, 97, 110, 97, 45, 100, 101, 118, 110, 101, 116]

/-- The header name `"X-PAYMENT"` (`X402_HEADER_PAYMENT`). -/
def hXPayment : Bytes := [88, 45, 80, 65, 89, 77, 69, 78, 84]

/-- The header name `"X-PAYMENT-RESPONSE"`
(`X402_HEADER_PAYMENT_RESPONSE`). -/
def hXPaymentResponse : Bytes :=
  [88, 45, 80, 65, 89, 77, 69, 78, 84, 45, 82, 69, 83, 80, 79, 78, 83, 69]

/-- The header name `"Content-Length"`. -/
def hContentLength : Bytes :=
  [67, 111, 110, 116, 101, 110, 116, 45, 76, 101, 110, 103, 116, 104]

/-! ## x402 data types — from the (newer, flat) `x402_types.h` whose
fields the sources in `src/` access; fixed-size `char[n]` fields
truncate to `n - 1` bytes on `strncpy`. -/

/-- `x402_payment_requirements_t` (recipient, network, asset,
price.amount/currency, facilitator.fee_payer, valid). -/
structure x402_payment_requirements where
  recipient : Bytes
  network : Bytes
  asset : Bytes
  price_amount : Bytes
  price_currency : Bytes
  fee_payer : Bytes
  valid : Bool
  deriving DecidableEq, Repr

/-- `x402_payment_payload_t` (flat form: x402_version, scheme, network,
payload.transaction). -/
structure x402_payment_payload where
  x402_version : Int
  scheme : Bytes
  network : Bytes
  payload_transaction : Bytes
  deriving DecidableEq, Repr

/-- `x402_settlement_response_t`. -/
structure x402_settlement_response where
  transaction : Bytes
  success : Bool
  network : Bytes
  deriving DecidableEq, Repr

/-- The zero-initialised settlement record (`memset(response_out, 0)`). -/
def settlementZero : x402_settlement_response :=
  { transaction := [], success := false, network := [] }

/-- `x402_response_t`. -/
structure x402_response where
  status_code : Nat
  headers : Bytes
  body : Option Bytes
  body_len : Nat
  payment_made : Bool
  settlement : x402_settlement_response
  deriving DecidableEq, Repr

/-! ## Envelope codec — embeds `x402_encoding.c` -/

/-- The JSON object `x402_payload_to_json` constructs: the four flat
top-level fields, with the transaction nested under `payload`. -/
def x402_payload_json (p : x402_payment_payload) : Json :=
  .obj [(kX402Version, .num p.x402_version),
        (kScheme, .str p.scheme),
        (kNetwork, .str p.network),
        (kPayload, .obj [(kTransaction, .str p.payload_transaction)])]

/-- `x402_payload_to_json`: the serialized (unformatted) JSON text. -/
def x402_payload_to_json (p : x402_payment_payload) : Bytes :=
  printJson (x402_payload_json p)

/-- `x402_base64_encode` over a `max_len` output buffer: mbedtls
first reports the required size (`ceil(n/3)*4` plus the terminating
NUL; a zero-length input makes the probe return 0 instead of
BUFFER_TOO_SMALL, which the wrapper treats as failure). -/
def x402_base64_encode (data : Bytes) (max_len : Nat) :
    Except Esp (Bytes × Nat) :=
  if data.length = 0 then .error .fail
  else
    let required := (data.length + 2) / 3 * 4 + 1
    if max_len < required then .error .no_mem
    else
      let e := b64encode data
      .ok (e, e.length)

/-- `x402_base64_decode` over a `max_len` output buffer. -/
def x402_base64_decode (encoded : Bytes) (max_len : Nat) :
    Except Esp (Bytes × Nat) :=
  match b64decode encoded with
  | none => .error .fail
  | some bytes =>
      if max_len < bytes.length then .error .fail
      else .ok (bytes, bytes.length)

/-- `x402_encode_payment_payload`: serialize to JSON, then Base64 into
a `max_len` buffer. -/
def x402_encode_payment_payload (p : x402_payment_payload)
    (max_len : Nat) : Except Esp Bytes :=
  let json_str := x402_payload_to_json p
  (x402_base64_encode json_str max_len).map (·.1)

/-- `x402_parse_settlement_json`: every field is optional; only an
unparseable document fails. -/
def x402_parse_settlement_json (json_str : Bytes) :
    Except Esp x402_settlement_response :=
  match cJSON_Parse json_str with
  | none => .error .fail
  | some root =>
      .ok { transaction := ((jStr (jGet (some root) kTransaction)).getD []).take 127
            success := (jBool (jGet (some root) kSuccess)).getD false
            network := ((jStr (jGet (some root) kNetwork)).getD []).take 63 }

/-- `x402_decode_settlement_response`: Base64-decode into a 2048-byte
buffer, then parse. -/
def x402_decode_settlement_response (encoded_b64 : Bytes) :
    Except Esp x402_settlement_response := do
  let decoded ← x402_base64_decode encoded_b64 2048
  x402_parse_settlement_json decoded.1

/-! ## Requirements parser — embeds `x402_requirements.c` -/

/-- `x402_parse_payment_requirements` after `cJSON_Parse` succeeded:
`accepts[0]` supplies `payTo`, `network` (default `solana-devnet`),
`asset` (optional), `maxAmountRequired`, and `extra.feePayer`
(optional). -/
def x402_parse_requirements_json (root : Json) :
    Except Esp x402_payment_requirements :=
  match jArr (jGet (some root) kAccepts) with
  | none => .error .fail
  | some accepts =>
      if accepts.length = 0 then .error .fail
      else
        match accepts.head? with
        | none => .error .fail
        | some option =>
            match jStr (jGet (some option) kPayTo) with
            | none => .error .fail
            | some payTo =>
                let network :=
                  match jStr (jGet (some option) kNetwork) with
                  | some n => n.take 63
                  | none => sSolanaDevnet
                let asset := ((jStr (jGet (some option) kAsset)).getD []).take 63
                match jStr (jGet (some option) kMaxAmountRequired) with
                | none => .error .fail
                | some maxAmount =>
                    let feePayer :=
                      ((jStr (jGet (jGet (some option) kExtra) kFeePayer)).getD
                        []).take 63
                    .ok { recipient := payTo.take 63
                          network := network
                          asset := asset
                          price_amount := maxAmount.take 31
                          price_currency := [85, 83, 68, 67]
                          fee_payer := feePayer
                          valid := true }

/-- `x402_parse_payment_requirements` on the raw 402 body. -/
def x402_parse_payment_requirements (response_body : Bytes) :
    Except Esp x402_payment_requirements :=
  match cJSON_Parse response_body with
  | none => .error .fail
  | some root => x402_parse_requirements_json root

/-- An HTTP response as the collaborator delivers it: status code, the
reported content length, the `X-PAYMENT-RESPONSE` header value when
present, and the captured body (`none` when no data arrived). -/
structure HttpResp where
  status : Nat
  content_length : Int
  payment_response : Option Bytes
  body : Option Bytes
  deriving DecidableEq, Repr

/-- A JSON-RPC exchange as delivered: HTTP status and captured body. -/
structure RpcResp where
  status : Nat
  body : Option Bytes
  deriving DecidableEq, Repr

/-- `x402_query_fee_payer` after its `/supported` response parsed:
require a non-empty `kinds` array, select the first entry whose
`network` matches exactly, and return its `extra.feePayer`. -/
def x402_query_fee_payer_json (root : Json) (network : Bytes)
    (max_len : Nat) : Except Esp Bytes :=
  match jArr (jGet (some root) kKinds) with
  | none => .error .fail
  | some kinds =>
      if kinds.length = 0 then .error .fail
      else
        match kinds.find? (fun kind =>
            match jStr (jGet (some kind) kNetwork) with
            | some n => n == network
            | none => false) with
        | none => .error .fail
        | some kind =>
            match jStr (jGet (jGet (some kind) kExtra) kFeePayer) with
            | none => .error .fail
            | some fp => .ok (fp.take (max_len - 1))

/-- `x402_query_fee_payer`: one HTTP GET of `<facilitator>/supported`
(the exchange result is the model's input), a 200 check, a
content-length sanity check, then the JSON selection above. -/
def x402_query_fee_payer (resp : Except Esp HttpResp) (network : Bytes)
    (max_len : Nat) : Except Esp Bytes :=
  match resp with
  | .error e => .error e
  | .ok r =>
      if r.status ≠ 200 then .error .fail
      else if r.content_length ≤ 0 ∨ 4096 < r.content_length then .error .fail
      else
        match cJSON_Parse (r.body.getD []) with
        | none => .error .fail
        | some root => x402_query_fee_payer_json root network max_len

/-! ## Mint program probe — embeds `spl_token_get_mint_program`.
The HTTP exchange itself is the model's input (the head of the RPC
environment); everything around it is the C control flow. -/

def spl_token_get_mint_program (renv : List (Except Esp RpcResp))
    (mint_pubkey : Bytes) : Except Esp Bytes × List (Except Esp RpcResp) :=
  match base58_encode mint_pubkey 64 with
  | none => (.error .fail, renv)
  | some _ =>
      match renv with
      | [] => (.error .fail, [])
      | e :: rest =>
          match e with
          | .error err => (.error err, rest)
          | .ok r =>
              if r.status ≠ 200 ∨ r.body = none then (.error .fail, rest)
              else
                match cJSON_Parse (r.body.getD []) with
                | none => (.error .fail, rest)
                | some root =>
                    match jStr (jGet (jGet (jGet (some root) kResult) kValue)
                        kOwner) with
                    | none => (.error .fail, rest)
                    | some owner_b58 =>
                        match base58_decode owner_b58 32 with
                        | none => (.error .fail, rest)
                        | some (bytes, len) =>
                            if len ≠ 32 then (.error .fail, rest)
                            else (.ok bytes, rest)

/-! ## Payment creation — embeds the current `x402_create_solana_payment`
and `x402_build_payment_transaction` (the definitions compiled against
the fee-payer-aware SPL builder). -/

/-- The blockhash branch of `x402_build_payment_transaction`:
`solana_rpc_get_latest_blockhash` (success means transport OK, HTTP
200 and a non-empty body), then `result.value.blockhash` is parsed and
Base58-decoded to 32 bytes.  Every failure maps to `ESP_FAIL`. -/
def x402_fetch_recent_blockhash (renv : List (Except Esp RpcResp)) :
    Except Esp Bytes × List (Except Esp RpcResp) :=
  match renv with
  | [] => (.error .fail, [])
  | e :: rest =>
      match e with
      | .error _ => (.error .fail, rest)
      | .ok r =>
          if r.status ≠ 200 ∨ r.body = none ∨ (r.body.getD []).length = 0 then
            (.error .fail, rest)
          else
            match cJSON_Parse (r.body.getD []) with
            | none => (.error .fail, rest)
            | some root =>
                match jStr (jGet (jGet (jGet (some root) kResult) kValue)
                    kBlockhash) with
                | none => (.error .fail, rest)
                | some bh58 =>
                    match base58_decode bh58 32 with
                    | none => (.error .fail, rest)
                    | some (bytes, len) =>
                        if len ≠ 32 then (.error .fail, rest)
                        else (.ok bytes, rest)

/-- `x402_build_payment_transaction`: wallet public key, fresh
blockhash, then the SPL transfer builder. -/
def x402_build_payment_transaction (wallet : solana_wallet)
    (fee_payer_pubkey recipient_pubkey mint_pubkey token_program_id : Bytes)
    (amount : Nat) (max_tx_len : Nat) (renv : List (Except Esp RpcResp)) :
    Except Esp Bytes × List (Except Esp RpcResp) :=
  match solana_wallet_get_pubkey wallet with
  | .error e => (.error e, renv)
  | .ok wallet_pubkey =>
      match x402_fetch_recent_blockhash renv with
      | (.error e, renv') => (.error e, renv')
      | (.ok blockhash, renv') =>
          (spl_token_create_transfer_transaction fee_payer_pubkey wallet_pubkey
            recipient_pubkey mint_pubkey token_program_id amount blockhash
            max_tx_len, renv')

/-- Step 3 of `x402_create_solana_payment`: `strtoull(amount, &endptr,
10)` with the two checks `endptr == amount || *endptr != '\0'` (no
digits, or trailing bytes) and `amount == 0`. -/
def x402_parse_amount (s : Bytes) : Except Esp Nat :=
  let r := strtoull10 s
  if r.2 = 0 ∨ r.2 ≠ s.length then .error .fail
  else if r.1 = 0 then .error .fail
  else .ok r.1

/-- `x402_create_solana_payment` (the current variant in
`x402_client.h`): decode recipient, mint and fee payer from the
requirements, parse the amount, resolve the mint's token program (one
RPC), build the transaction (one more RPC for the blockhash), sign the
message bytes and write the device signature into the second 64-byte
slot, Base64-encode, and fill the flat payload. -/
def x402_create_solana_payment (wallet : solana_wallet)
    (requirements : x402_payment_requirements)
    (renv : List (Except Esp RpcResp)) :
    Except Esp x402_payment_payload × List (Except Esp RpcResp) :=
  if ¬ requirements.valid then (.error .invalid_state, renv)
  else
    match base58_decode requirements.recipient 32 with
    | none => (.error .fail, renv)
    | some (recipient_pubkey, rlen) =>
        if rlen ≠ 32 then (.error .fail, renv)
        else
          match base58_decode requirements.asset 32 with
          | none => (.error .fail, renv)
          | some (mint_pubkey, mlen) =>
              if mlen ≠ 32 then (.error .fail, renv)
              else
                match x402_parse_amount requirements.price_amount with
                | .error e => (.error e, renv)
                | .ok amount =>
                    if requirements.fee_payer.length = 0 then
                      (.error .fail, renv)
                    else
                      match base58_decode requirements.fee_payer 32 with
                      | none => (.error .fail, renv)
                      | some (fee_payer_pubkey, flen) =>
                          if flen ≠ 32 then (.error .fail, renv)
                          else
                            match spl_token_get_mint_program renv mint_pubkey with
                            | (.error e, renv1) => (.error e, renv1)
                            | (.ok token_program_id, renv1) =>
                                match x402_build_payment_transaction wallet
                                    fee_payer_pubkey recipient_pubkey
                                    mint_pubkey token_program_id amount 2048
                                    renv1 with
                                | (.error e, renv2) => (.error e, renv2)
                                | (.ok tx_data, renv2) =>
                                    let message := tx_data.drop 129
                                    match solana_wallet_sign wallet message with
                                    | .error e => (.error e, renv2)
                                    | .ok signature =>
                                        let signed := tx_data.take 65 ++
                                          signature ++ tx_data.drop 129
                                        match x402_base64_encode signed 4096 with
                                        | .error e => (.error e, renv2)
                                        | .ok (tx_b64, _) =>
                                            (.ok { x402_version := 1
                                                   scheme := sExact.take 31
                                                   network :=
                                                     requirements.network.take 63
                                                   payload_transaction := tx_b64 },
                                             renv2)

/-! ## HTTP driver — embeds `x402_client.c` -/

/-- The header blob `http_request` hands back: a `Content-Length`
line and, when present, the `X-PAYMENT-RESPONSE` line (`snprintf`
into a 1024-byte buffer). -/
def mkHeaderBlob (r : HttpResp) : Bytes :=
  (hContentLength ++ [58, 32] ++ intDec r.content_length ++ [13, 10] ++
    (match r.payment_response with
     | some v => hXPaymentResponse ++ [58, 32] ++ v ++ [13, 10]
     | none => [])).take 1023

/-- `http_request`: one exchange with the HTTP collaborator, taken
from the head of the environment (an exhausted environment is a
transport failure).  Returns status, the header blob, the body and its
length. -/
def http_request (henv : List (Except Esp HttpResp)) :
    Except Esp (Nat × Bytes × Option Bytes × Nat) ×
      List (Except Esp HttpResp) :=
  match henv with
  | [] => (.error .fail, [])
  | e :: rest =>
      match e with
      | .error err => (.error err, rest)
      | .ok r =>
          (.ok (r.status, mkHeaderBlob r, r.body, (r.body.getD []).length), rest)

/-- Position of the first occurrence of `pat` in `hay` (C `strstr`). -/
def strstrPos (hay pat : Bytes) : Option Nat :=
  if pat.isPrefixOf hay then some 0
  else
    match hay with
    | [] => none
    | _ :: t => (strstrPos t pat).map (· + 1)

/-- `x402_extract_header`: find `<name>:`, skip spaces and tabs, copy
up to the end of the line (at most `max_len - 1` bytes); an empty
value counts as absence. -/
def x402_extract_header (headers name : Bytes) (max_len : Nat) :
    Option Bytes :=
  match strstrPos headers (name ++ [58]) with
  | none => none
  | some i =>
      let after := (headers.drop (i + name.length + 1)).dropWhile
        (fun c => c == 32 || c == 9)
      let v := (after.takeWhile (fun c => ¬ (c == 13 ∨ c == 10))).take
        (max_len - 1)
      if v.length = 0 then none else some v

/-- `x402_is_payment_required`. -/
def x402_is_payment_required (status_code : Nat) : Bool :=
  status_code == 402

/-- `x402_fetch`: the two-phase driver of `x402_client.c`.  The HTTP
and JSON-RPC collaborators are environments consumed strictly in
program order: the initial request, then (on 402) the mint-program and
blockhash RPCs inside payment creation, then the single paid retry.
Returns the driver result together with both unconsumed environments,
so that theorems can count the exchanges actually issued. -/
def x402_fetch (wallet : solana_wallet) (headers body : Option Bytes)
    (henv : List (Except Esp HttpResp)) (renv : List (Except Esp RpcResp)) :
    Except Esp x402_response ×
      (List (Except Esp HttpResp) × List (Except Esp RpcResp)) :=
  match http_request henv with
  | (.error e, henv1) => (.error e, (henv1, renv))
  | (.ok (status_code, resp_headers, resp_body, resp_body_len), henv1) =>
      if ¬ x402_is_payment_required status_code then
        (.ok { status_code := status_code
               headers := resp_headers
               body := resp_body
               body_len := resp_body_len
               payment_made := false
               settlement := settlementZero }, (henv1, renv))
      else
        match resp_body with
        | none => (.error .fail, (henv1, renv))
        | some body402 =>
            match x402_parse_payment_requirements body402 with
            | .error e => (.error e, (henv1, renv))
            | .ok requirements =>
                match x402_create_solana_payment wallet requirements renv with
                | (.error e, renv1) => (.error e, (henv1, renv1))
                | (.ok payload, renv1) =>
                    match x402_encode_payment_payload payload 8192 with
                    | .error e => (.error e, (henv1, renv1))
                    | .ok payment_encoded =>
                        let retry_headers : Bytes :=
                          (match headers with
                           | some h =>
                               if h.length ≠ 0 then
                                 h ++ [13, 10] ++ hXPayment ++ [58, 32] ++
                                   payment_encoded
                               else hXPayment ++ [58, 32] ++ payment_encoded
                           | none => hXPayment ++ [58, 32] ++
                               payment_encoded).take 16383
                        match http_request henv1 with
                        | (.error e, henv2) => (.error e, (henv2, renv1))
                        | (.ok (st2, hdr2, body2, blen2), henv2) =>
                            let pm : Bool × x402_settlement_response :=
                              match x402_extract_header hdr2
                                  hXPaymentResponse 4096 with
                              | some pr =>
                                  match x402_decode_settlement_response pr with
                                  | .ok settlement => (true, settlement)
                                  | .error _ => (false, settlementZero)
                              | none => (false, settlementZero)
                            (.ok { status_code := st2
                                   headers := hdr2
                                   body := body2
                                   body_len := blen2
                                   payment_made := pm.1
                                   settlement := pm.2 }, (henv2, renv1))

/-- Following the spec's words (the ATA derivation edge-case policy):
the search starts at `bump = 255` and decrements, the first bump whose
SHA-256 hash is off the Ed25519 curve wins, and if all 256 bumps
produce on-curve hashes the derivation fails with a dedicated error.
Stated independently of the C loop so the loop can be proved to refine
it. -/
def find_program_address_spec (seeds : List Bytes) (program_id : Bytes) :
    Except Esp (Bytes × Nat) :=
  (((List.range 256).reverse).find?
      (fun b => ! is_on_curve (pda_hash seeds program_id b))).elim
    (.error .fail) (fun b => .ok (pda_hash seeds program_id b, b))

/-- The list of top-level keys of a JSON value (empty for
non-objects). -/
def jsonTopKeys : Json → List Bytes
  | .obj fields => fields.map (·.1)
  | _ => []

/-- The amount step of the older `x402_create_solana_payment` variant
in `x402_payment.c` (its step 2): `maxAmountRequired` is handed to
`spl_token_parse_usd_amount` with `USDC_DECIMALS`. -/
def x402_payment_amount_step (requirements : x402_payment_requirements) :
    Except Esp Nat :=
  spl_token_parse_usd_amount requirements.price_amount USDC_DECIMALS


/-! ## Concrete test vectors used by the verification witnesses and
counterexamples: a 402 body advertising a devnet payment, matching
mint-owner and blockhash RPC bodies, and the transaction, signature and
envelope the embedded pipeline produces for them. -/

/-- A 402 response body with `extra.feePayer` present. -/
def cvBody402 : Bytes := [123, 34, 97, 99, 99, 101, 112, 116, 115, 34, 58, 91, 123, 34, 112, 97, 121, 84, 111, 34, 58, 34, 49, 49, 49, 49, 49, 49, 49, 49, 49, 49, 49, 49, 49, 49, 49, 49, 49, 49, 49, 49, 49, 49, 49, 49, 49, 49, 49, 49, 49, 49, 49, 50, 34, 44, 34, 110, 101, 116, 119, 111, 114, 107, 34, 58, 34, 115, 111, 108, 97, 110, 97, 45, 100, 101, 118, 110, 101, 116, 34, 44, 34, 97, 115, 115, 101, 116, 34, 58, 34, 49, 49, 49, 49, 49, 49, 49, 49, 49, 49, 49, 49, 49, 49, 49, 49, 49, 49, 49, 49, 49, 49, 49, 49, 49, 49, 49, 49, 49, 49, 49, 51, 34, 44, 34, 109, 97, 120, 65, 109, 111, 117, 110, 116, 82, 101, 113, 117, 105, 114, 101, 100, 34, 58, 34, 49, 48, 48, 34, 44, 34, 101, 120, 116, 114, 97, 34, 58, 123, 34, 102, 101, 101, 80, 97, 121, 101, 114, 34, 58, 34, 49, 49, 49, 49, 49, 49, 49, 49, 49, 49, 49, 49, 49, 49, 49, 49, 49, 49, 49, 49, 49, 49, 49, 49, 49, 49, 49, 49, 49, 49, 49, 53, 34, 125, 125, 93, 125]

/-- The same 402 body without `extra.feePayer`. -/
def cvBody402NoFee : Bytes := [123, 34, 97, 99, 99, 101, 112, 116, 115, 34, 58, 91, 123, 34, 112, 97, 121, 84, 111, 34, 58, 34, 49, 49, 49, 49, 49, 49, 49, 49, 49, 49, 49, 49, 49, 49, 49, 49, 49, 49, 49, 49, 49, 49, 49, 49, 49, 49, 49, 49, 49, 49, 49, 50, 34, 44, 34, 110, 101, 116, 119, 111, 114, 107, 34, 58, 34, 115, 111, 108, 97, 110, 97, 45, 100, 101, 118, 110, 101, 116, 34, 44, 34, 97, 115, 115, 101, 116, 34, 58, 34, 49, 49, 49, 49, 49, 49, 49, 49, 49, 49, 49, 49, 49, 49, 49, 49, 49, 49, 49, 49, 49, 49, 49, 49, 49, 49, 49, 49, 49, 49, 49, 51, 34, 44, 34, 109, 97, 120, 65, 109, 111, 117, 110, 116, 82, 101, 113, 117, 105, 114, 101, 100, 34, 58, 34, 49, 48, 48, 34, 125, 93, 125]

/-- A `getAccountInfo` RPC body giving the mint owner. -/
def cvMintBody : Bytes := [123, 34, 114, 101, 115, 117, 108, 116, 34, 58, 123, 34, 118, 97, 108, 117, 101, 34, 58, 123, 34, 111, 119, 110, 101, 114, 34, 58, 34, 49, 49, 49, 49, 49, 49, 49, 49, 49, 49, 49, 49, 49, 49, 49, 49, 49, 49, 49, 49, 49, 49, 49, 49, 49, 49, 49, 49, 49, 49, 49, 52, 34, 125, 125, 125]

/-- A `getLatestBlockhash` RPC body. -/
def cvBhBody : Bytes := [123, 34, 114, 101, 115, 117, 108, 116, 34, 58, 123, 34, 118, 97, 108, 117, 101, 34, 58, 123, 34, 98, 108, 111, 99, 107, 104, 97, 115, 104, 34, 58, 34, 49, 49, 49, 49, 49, 49, 49, 49, 49, 49, 49, 49, 49, 49, 49, 49, 49, 49, 49, 49, 49, 49, 49, 49, 49, 49, 49, 49, 49, 49, 49, 54, 34, 125, 125, 125]

/-- A `/supported` response body whose only entry matches
`solana-devnet`. -/
def cvSuppBody : Bytes := [123, 34, 107, 105, 110, 100, 115, 34, 58, 91, 123, 34, 120, 52, 48, 50, 86, 101, 114, 115, 105, 111, 110, 34, 58, 49, 44, 34, 115, 99, 104, 101, 109, 101, 34, 58, 34, 101, 120, 97, 99, 116, 34, 44, 34, 110, 101, 116, 119, 111, 114, 107, 34, 58, 34, 115, 111, 108, 97, 110, 97, 45, 100, 101, 118, 110, 101, 116, 34, 44, 34, 101, 120, 116, 114, 97, 34, 58, 123, 34, 102, 101, 101, 80, 97, 121, 101, 114, 34, 58, 34, 49, 49, 49, 49, 49, 49, 49, 49, 49, 49, 49, 49, 49, 49, 49, 49, 49, 49, 49, 49, 49, 49, 49, 49, 49, 49, 49, 49, 49, 49, 49, 53, 34, 125, 125, 93, 125]

/-- The test wallet (64-byte expanded secret of all `7`s). -/
def cvWallet : solana_wallet := ⟨List.replicate 64 7, List.replicate 32 7⟩

/-- The RPC environment delivering the mint owner then the blockhash. -/
def cvRenv : List (Except Esp RpcResp) :=
  [.ok { status := 200, body := some cvMintBody },
   .ok { status := 200, body := some cvBhBody }]

/-- The requirements `cvBody402` parses to. -/
def cvReq : x402_payment_requirements :=
  { recipient := List.replicate 31 49 ++ [50], network := sSolanaDevnet,
    asset := List.replicate 31 49 ++ [51], price_amount := [49, 48, 48],
    price_currency := [85, 83, 68, 67],
    fee_payer := List.replicate 31 49 ++ [53], valid := true }

/-- The 341-byte transaction the SPL builder produces for the test
vector. -/
def cvTx : Bytes := [2, 0, 0, 0, 0, 0, 0, 0, 0, 0, 0, 0, 0, 0, 0, 0, 0, 0, 0, 0, 0, 0, 0, 0, 0, 0, 0, 0, 0, 0, 0, 0, 0, 0, 0, 0, 0, 0, 0, 0, 0, 0, 0, 0, 0, 0, 0, 0, 0, 0, 0, 0, 0, 0, 0, 0, 0, 0, 0, 0, 0, 0, 0, 0, 0, 0, 0, 0, 0, 0, 0, 0, 0, 0, 0, 0, 0, 0, 0, 0, 0, 0, 0, 0, 0, 0, 0, 0, 0, 0, 0, 0, 0, 0, 0, 0, 0, 0, 0, 0, 0, 0, 0, 0, 0, 0, 0, 0, 0, 0, 0, 0, 0, 0, 0, 0, 0, 0, 0, 0, 0, 0, 0, 0, 0, 0, 0, 0, 0, 2, 1, 1, 5, 0, 0, 0, 0, 0, 0, 0, 0, 0, 0, 0, 0, 0, 0, 0, 0, 0, 0, 0, 0, 0, 0, 0, 0, 0, 0, 0, 0, 0, 0, 0, 4, 7, 7, 7, 7, 7, 7, 7, 7, 7, 7, 7, 7, 7, 7, 7, 7, 7, 7, 7, 7, 7, 7, 7, 7, 7, 7, 7, 7, 7, 7, 7, 7, 107, 0, 37, 91, 202, 91, 85, 34, 95, 238, 7, 19, 111, 142, 13, 57, 184, 87, 76, 171, 49, 192, 115, 107, 114, 19, 48, 20, 42, 6, 85, 9, 155, 155, 134, 15, 62, 163, 148, 56, 66, 77, 77, 159, 102, 96, 94, 87, 165, 235, 50, 185, 27, 29, 61, 253, 189, 255, 128, 136, 193, 134, 150, 145, 0, 0, 0, 0, 0, 0, 0, 0, 0, 0, 0, 0, 0, 0, 0, 0, 0, 0, 0, 0, 0, 0, 0, 0, 0, 0, 0, 0, 0, 0, 0, 3, 0, 0, 0, 0, 0, 0, 0, 0, 0, 0, 0, 0, 0, 0, 0, 0, 0, 0, 0, 0, 0, 0, 0, 0, 0, 0, 0, 0, 0, 0, 0, 5, 1, 4, 3, 2, 3, 1, 9, 3, 100, 0, 0, 0, 0, 0, 0, 0]

/-- The signature `cvWallet` produces over `cvTx`'s message bytes. -/
def cvSig : Bytes := [172, 172, 171, 120, 239, 122, 90, 238, 21, 239, 248, 54, 47, 43, 182, 104, 210, 115, 26, 184, 179, 241, 246, 146, 138, 130, 18, 171, 205, 84, 74, 136, 38, 60, 178, 186, 24, 132, 38, 15, 14, 49, 23, 154, 146, 179, 100, 174, 14, 19, 72, 9, 140, 148, 120, 34, 234, 175, 156, 175, 118, 96, 50, 13]

/-- Base64 of the signed test transaction. -/
def cvTxB64 : Bytes := [65, 103, 65, 65, 65, 65, 65, 65, 65, 65, 65, 65, 65, 65, 65, 65, 65, 65, 65, 65, 65, 65, 65, 65, 65, 65, 65, 65, 65, 65, 65, 65, 65, 65, 65, 65, 65, 65, 65, 65, 65, 65, 65, 65, 65, 65, 65, 65, 65, 65, 65, 65, 65, 65, 65, 65, 65, 65, 65, 65, 65, 65, 65, 65, 65, 65, 65, 65, 65, 65, 65, 65, 65, 65, 65, 65, 65, 65, 65, 65, 65, 65, 65, 65, 65, 65, 67, 115, 114, 75, 116, 52, 55, 51, 112, 97, 55, 104, 88, 118, 43, 68, 89, 118, 75, 55, 90, 111, 48, 110, 77, 97, 117, 76, 80, 120, 57, 112, 75, 75, 103, 104, 75, 114, 122, 86, 82, 75, 105, 67, 89, 56, 115, 114, 111, 89, 104, 67, 89, 80, 68, 106, 69, 88, 109, 112, 75, 122, 90, 75, 52, 79, 69, 48, 103, 74, 106, 74, 82, 52, 73, 117, 113, 118, 110, 75, 57, 50, 89, 68, 73, 78, 65, 103, 69, 66, 66, 81, 65, 65, 65, 65, 65, 65, 65, 65, 65, 65, 65, 65, 65, 65, 65, 65, 65, 65, 65, 65, 65, 65, 65, 65, 65, 65, 65, 65, 65, 65, 65, 65, 65, 65, 65, 65, 65, 65, 65, 65, 65, 69, 66, 119, 99, 72, 66, 119, 99, 72, 66, 119, 99, 72, 66, 119, 99, 72, 66, 119, 99, 72, 66, 119, 99, 72, 66, 119, 99, 72, 66, 119, 99, 72, 66, 119, 99, 72, 66, 119, 99, 72, 66, 119, 100, 114, 65, 67, 86, 98, 121, 108, 116, 86, 73, 108, 47, 117, 66, 120, 78, 118, 106, 103, 48, 53, 117, 70, 100, 77, 113, 122, 72, 65, 99, 50, 116, 121, 69, 122, 65, 85, 75, 103, 90, 86, 67, 90, 117, 98, 104, 103, 56, 43, 111, 53, 81, 52, 81, 107, 49, 78, 110, 50, 90, 103, 88, 108, 101, 108, 54, 122, 75, 53, 71, 120, 48, 57, 47, 98, 51, 47, 103, 73, 106, 66, 104, 112, 97, 82, 65, 65, 65, 65, 65, 65, 65, 65, 65, 65, 65, 65, 65, 65, 65, 65, 65, 65, 65, 65, 65, 65, 65, 65, 65, 65, 65, 65, 65, 65, 65, 65, 65, 65, 65, 65, 65, 65, 65, 65, 65, 65, 77, 65, 65, 65, 65, 65, 65, 65, 65, 65, 65, 65, 65, 65, 65, 65, 65, 65, 65, 65, 65, 65, 65, 65, 65, 65, 65, 65, 65, 65, 65, 65, 65, 65, 65, 65, 65, 65, 65, 65, 65, 65, 66, 81, 69, 69, 65, 119, 73, 68, 65, 81, 107, 68, 90, 65, 65, 65, 65, 65, 65, 65, 65, 65, 65, 61]

/-- The Ed25519 nonce scalar of the test signature. -/
def cvR : Nat := 5152679946934803117229319287285422806644891466074240844672349413377471990219

/-- Ladder state after the first 64 of the 256 double-and-add rounds
for `cvR`. -/
def cvPt1 : EdPoint := (40393267706033376997881598679545873401670130379228945086505315437549961641060, (5047411565310393806149746577186554189644371404519676185966957281759901940491, (30044278472822253166180385567965560941733792028915520851299787577623952107746, 34505259463509022778723926966351337211667678268950142135867033528502581523041)))

/-- Ladder state after 128 rounds. -/
def cvPt2 : EdPoint := (51979919496108472983386268467455751674493770884925321014617579558084728474589, (26416908806739341445567168830982935123802897854156524118148928710373464059493, (50145778483001914262821431505537007448736540129966771638286151390821036203968, 26157588905527956077640032817345151506061458128350975004793859816213608014537)))

/-- Ladder state after 192 rounds. -/
def cvPt3 : EdPoint := (53651288083946489698992454122472654887160547572033492564593282584640212764624, (28301450100583489604539884997393614601980231028630514303110132263306956314306, (41269527231838271394333714246853128450761863143124024631784854589728545304733, 27376450671505340526272779228032023021787948610666657645453324507536105817808)))

/-- Ladder state after all 256 rounds (`cvR * B`). -/
def cvPt4 : EdPoint := (2559444975615117674455272395628101234617428040865851041872566148526055314016, (5257555425867984238891637932180856671210391914755604126287150236660576940224, (41001156427515913614378301621424399138636817145848136220016481277026533309072, 38115393999056358882633245348808007603675271849279647190281687551450642793831)))

/-- The payment payload the pipeline produces for the test vector. -/
def cvPay : x402_payment_payload :=
  { x402_version := 1, scheme := sExact, network := sSolanaDevnet,
    payload_transaction := cvTxB64 }


/-- Base64 of the serialized payment payload (the `X-PAYMENT` value of
the test vector). -/
def cvEnc : Bytes := [101, 121, 74, 52, 78, 68, 65, 121, 86, 109, 86, 121, 99, 50, 108, 118, 98, 105, 73, 54, 77, 83, 119, 105, 99, 50, 78, 111, 90, 87, 49, 108, 73, 106, 111, 105, 90, 88, 104, 104, 89, 51, 81, 105, 76, 67, 74, 117, 90, 88, 82, 51, 98, 51, 74, 114, 73, 106, 111, 105, 99, 50, 57, 115, 89, 87, 53, 104, 76, 87, 82, 108, 100, 109, 53, 108, 100, 67, 73, 115, 73, 110, 66, 104, 101, 87, 120, 118, 89, 87, 81, 105, 79, 110, 115, 105, 100, 72, 74, 104, 98, 110, 78, 104, 89, 51, 82, 112, 98, 50, 52, 105, 79, 105, 74, 66, 90, 48, 70, 66, 81, 85, 70, 66, 81, 85, 70, 66, 81, 85, 70, 66, 81, 85, 70, 66, 81, 85, 70, 66, 81, 85, 70, 66, 81, 85, 70, 66, 81, 85, 70, 66, 81, 85, 70, 66, 81, 85, 70, 66, 81, 85, 70, 66, 81, 85, 70, 66, 81, 85, 70, 66, 81, 85, 70, 66, 81, 85, 70, 66, 81, 85, 70, 66, 81, 85, 70, 66, 81, 85, 70, 66, 81, 85, 70, 66, 81, 85, 70, 66, 81, 85, 70, 66, 81, 85, 70, 66, 81, 85, 70, 66, 81, 85, 70, 66, 81, 85, 70, 66, 81, 85, 70, 66, 81, 85, 70, 66, 81, 85, 78, 122, 99, 107, 116, 48, 78, 68, 99, 122, 99, 71, 69, 51, 97, 70, 104, 50, 75, 48, 82, 90, 100, 107, 115, 51, 87, 109, 56, 119, 98, 107, 49, 104, 100, 85, 120, 81, 101, 68, 108, 119, 83, 48, 116, 110, 97, 69, 116, 121, 101, 108, 90, 83, 83, 50, 108, 68, 87, 84, 104, 122, 99, 109, 57, 90, 97, 69, 78, 90, 85, 69, 82, 113, 82, 86, 104, 116, 99, 69, 116, 54, 87, 107, 115, 48, 84, 48, 85, 119, 90, 48, 112, 113, 83, 108, 73, 48, 83, 88, 86, 120, 100, 109, 53, 76, 79, 84, 74, 90, 82, 69, 108, 79, 81, 87, 100, 70, 81, 107, 74, 82, 81, 85, 70, 66, 81, 85, 70, 66, 81, 85, 70, 66, 81, 85, 70, 66, 81, 85, 70, 66, 81, 85, 70, 66, 81, 85, 70, 66, 81, 85, 70, 66, 81, 85, 70, 66, 81, 85, 70, 66, 81, 85, 70, 66, 81, 85, 70, 66, 81, 85, 70, 66, 81, 85, 70, 70, 81, 110, 100, 106, 83, 69, 74, 51, 89, 48, 104, 67, 100, 50, 78, 73, 81, 110, 100, 106, 83, 69, 74, 51, 89, 48, 104, 67, 100, 50, 78, 73, 81, 110, 100, 106, 83, 69, 74, 51, 89, 48, 104, 67, 100, 50, 78, 73, 81, 110, 100, 106, 83, 69, 74, 51, 90, 72, 74, 66, 81, 49, 90, 105, 101, 87, 120, 48, 86, 107, 108, 115, 76, 51, 86, 67, 101, 69, 53, 50, 97, 109, 99, 119, 78, 88, 86, 71, 90, 69, 49, 120, 101, 107, 104, 66, 89, 122, 74, 48, 101, 85, 86, 54, 81, 86, 86, 76, 90, 49, 112, 87, 81, 49, 112, 49, 89, 109, 104, 110, 79, 67, 116, 118, 78, 86, 69, 48, 85, 87, 115, 120, 84, 109, 52, 121, 87, 109, 100, 89, 98, 71, 86, 115, 78, 110, 112, 76, 78, 85, 100, 52, 77, 68, 107, 118, 89, 106, 77, 118, 90, 48, 108, 113, 81, 109, 104, 119, 89, 86, 74, 66, 81, 85, 70, 66, 81, 85, 70, 66, 81, 85, 70, 66, 81, 85, 70, 66, 81, 85, 70, 66, 81, 85, 70, 66, 81, 85, 70, 66, 81, 85, 70, 66, 81, 85, 70, 66, 81, 85, 70, 66, 81, 85, 70, 66, 81, 85, 70, 66, 81, 85, 70, 66, 81, 85, 70, 78, 81, 85, 70, 66, 81, 85, 70, 66, 81, 85, 70, 66, 81, 85, 70, 66, 81, 85, 70, 66, 81, 85, 70, 66, 81, 85, 70, 66, 81, 85, 70, 66, 81, 85, 70, 66, 81, 85, 70, 66, 81, 85, 70, 66, 81, 85, 70, 66, 81, 85, 70, 66, 81, 85, 70, 67, 85, 85, 86, 70, 81, 88, 100, 74, 82, 69, 70, 82, 97, 48, 82, 97, 81, 85, 70, 66, 81, 85, 70, 66, 81, 85, 70, 66, 81, 84, 48, 105, 102, 88, 48, 61]

/-- The initial 402 exchange of the test vector. -/
def cvResp1 : HttpResp :=
  { status := 402, content_length := 209, payment_response := none,
    body := some cvBody402 }

/-- The retry exchange: 402 again, no settlement header. -/
def cvResp2 : HttpResp :=
  { status := 402, content_length := 0, payment_response := none,
    body := none }

/-- The HTTP environment: a 402, then a 402 again on the paid retry. -/
def cvHenv : List (Except Esp HttpResp) := [.ok cvResp1, .ok cvResp2]

/-- The shape invariant of the conversion buffer: it is the single
digit `[0]`, or its most significant digit is non-zero. -/
def DigInv (ds : List Nat) : Prop :=
  ds ≠ [] ∧ (ds = [0] ∨ ds.getLast? ≠ some 0)

/-! ## Lemmas about the base-conversion core -/

theorem rsCore_length (mulB outB : Nat) (ds : List Nat) (c : Nat) :
    (rsCore mulB outB ds c).1.length = ds.length := by
  induction ds generalizing c with
  | nil => rfl
  | cons d tl ih => simp [rsCore, ih]

theorem natDigitsFuel_eq (b : Nat) (hb : 1 < b) :
    ∀ (fuel n : Nat), n ≤ fuel → natDigitsFuel fuel b n = Nat.digits b n := by
  intro fuel
  induction fuel with
  | zero =>
      intro n hn
      have : n = 0 := by omega
      subst this
      simp [natDigitsFuel]
  | succ f ih =>
      intro n hn
      by_cases h0 : n = 0
      · subst h0; simp [natDigitsFuel]
      · rw [natDigitsFuel, if_neg h0,
          Nat.digits_def' hb (Nat.pos_of_ne_zero h0),
          ih (n / b) (by
            have := Nat.div_lt_self (Nat.pos_of_ne_zero h0) hb
            omega)]

theorem carryDigits_eq (b c : Nat) (hb : 1 < b) :
    carryDigits b c = Nat.digits b c :=
  natDigitsFuel_eq b hb c c (Nat.le_refl c)

theorem rsCore_cons (mulB outB d c : Nat) (tl : List Nat) :
    rsCore mulB outB (d :: tl) c =
      ((c + d * mulB) % outB :: (rsCore mulB outB tl ((c + d * mulB) / outB)).1,
       (rsCore mulB outB tl ((c + d * mulB) / outB)).2) := rfl

theorem rsCore_val (mulB outB : Nat) (ds : List Nat) (c : Nat) :
    Nat.ofDigits outB (rsCore mulB outB ds c).1 +
      outB ^ ds.length * (rsCore mulB outB ds c).2 =
    c + mulB * Nat.ofDigits outB ds := by
  induction ds generalizing c with
  | nil => simp [rsCore, Nat.ofDigits]
  | cons d tl ih =>
      rw [rsCore_cons]
      simp only [Nat.ofDigits_cons, List.length_cons]
      have h := ih ((c + d * mulB) / outB)
      have h2 := congrArg (fun z => outB * z) h
      simp only at h2
      have hmd : outB * ((c + d * mulB) / outB) + (c + d * mulB) % outB
          = c + d * mulB := Nat.div_add_mod _ _
      ring_nf at h2 ⊢
      linarith [h2, hmd]

theorem rsCore_mem_lt (mulB outB : Nat) (h : 0 < outB) (ds : List Nat) (c : Nat) :
    ∀ x ∈ (rsCore mulB outB ds c).1, x < outB := by
  induction ds generalizing c with
  | nil => simp [rsCore]
  | cons d tl ih =>
      intro x hx
      simp only [rsCore, List.mem_cons] at hx
      rcases hx with rfl | hx
      · exact Nat.mod_lt _ h
      · exact ih _ x hx

theorem rebaseStep_val (mulB outB : Nat) (h : 1 < outB) (ds : List Nat) (d : Nat) :
    Nat.ofDigits outB (rebaseStep mulB outB ds d) =
      d + mulB * Nat.ofDigits outB ds := by
  have hv := rsCore_val mulB outB ds d
  have hl := rsCore_length mulB outB ds d
  simp only [rebaseStep, carryDigits_eq outB _ h, Nat.ofDigits_append,
    Nat.ofDigits_digits, hl]
  omega

theorem rebaseStep_mem_lt (mulB outB : Nat) (h : 1 < outB) (ds : List Nat) (d : Nat) :
    ∀ x ∈ rebaseStep mulB outB ds d, x < outB := by
  intro x hx
  simp only [rebaseStep, carryDigits_eq outB _ h, List.mem_append] at hx
  rcases hx with hx | hx
  · exact rsCore_mem_lt mulB outB (by omega) ds d x hx
  · exact Nat.digits_lt_base h hx

theorem rebaseStep_ne_nil (mulB outB : Nat) (ds : List Nat) (hds : ds ≠ []) (d : Nat) :
    rebaseStep mulB outB ds d ≠ [] := by
  have hl := rsCore_length mulB outB ds d
  intro hc
  rcases List.append_eq_nil.mp hc with ⟨h1, _⟩
  exact hds (List.length_eq_zero.mp (by rw [← hl, h1]; rfl))

theorem getLast?_cons_of_ne (x : Nat) (ys : List Nat) (h : ys ≠ []) :
    (x :: ys).getLast? = ys.getLast? := by
  simpa using List.getLast?_append_of_ne_nil [x] h

theorem rsCore_last_ne_zero (mulB outB : Nat) (hm : 0 < mulB) (ds : List Nat) (c : Nat)
    (hds : ds ≠ []) (hcarry : (rsCore mulB outB ds c).2 = 0)
    (hlast : ds.getLast? ≠ some 0) :
    (rsCore mulB outB ds c).1.getLast? ≠ some 0 := by
  induction ds generalizing c with
  | nil => exact absurd rfl hds
  | cons d tl ih =>
      cases tl with
      | nil =>
          rw [rsCore_cons] at hcarry ⊢
          simp only [rsCore] at hcarry ⊢
          have hd : d ≠ 0 := by simpa using hlast
          have h1 : 0 < d * mulB := Nat.mul_pos (Nat.pos_of_ne_zero hd) hm
          have hx : (c + d * mulB) % outB ≠ 0 := by
            rcases Nat.eq_zero_or_pos outB with h0 | h0
            · subst h0; simpa [Nat.mod_zero] using by omega
            · have hlt : c + d * mulB < outB :=
                (Nat.div_eq_zero_iff h0).mp hcarry
              rw [Nat.mod_eq_of_lt hlt]; omega
          simpa using hx
      | cons d2 tl2 =>
          rw [rsCore_cons] at hcarry ⊢
          have hne2 : (rsCore mulB outB (d2 :: tl2) ((c + d * mulB) / outB)).1 ≠ [] := by
            intro h
            have hl := rsCore_length mulB outB (d2 :: tl2) ((c + d * mulB) / outB)
            rw [h] at hl
            simp at hl
          rw [getLast?_cons_of_ne _ _ hne2]
          refine ih _ (by simp) hcarry ?_
          rw [List.getLast?_cons_cons] at hlast
          exact hlast

theorem rebaseStep_inv (mulB outB : Nat) (hm : 0 < mulB) (hout : 1 < outB)
    (ds : List Nat) (hinv : DigInv ds) (d : Nat) :
    DigInv (rebaseStep mulB outB ds d) := by
  obtain ⟨hne, hshape⟩ := hinv
  refine ⟨rebaseStep_ne_nil mulB outB ds hne d, ?_⟩
  by_cases hc : (rsCore mulB outB ds d).2 = 0
  · -- no buffer extension: the carry-propagated digits are the result
    have hdig : carryDigits outB (rsCore mulB outB ds d).2 = [] := by
      rw [carryDigits_eq outB _ hout, hc]; exact Nat.digits_zero outB
    have hres : rebaseStep mulB outB ds d = (rsCore mulB outB ds d).1 := by
      simp [rebaseStep, hdig]
    rcases hshape with h0 | hlast
    · -- buffer was [0]
      subst h0
      have hr : rsCore mulB outB [0] d = ([d % outB], d / outB) := by
        simp [rsCore_cons, rsCore]
      rw [hr] at hres hc
      have hlt : d < outB := (Nat.div_eq_zero_iff (by omega)).mp hc
      rw [hres]
      by_cases hd0 : d = 0
      · left; simp [hd0]
      · right
        rw [Nat.mod_eq_of_lt hlt]
        simpa using hd0
    · right
      rw [hres]
      exact rsCore_last_ne_zero mulB outB hm ds d hne hc hlast
  · -- the buffer was extended; the appended digits of the carry end
    -- in a non-zero digit
    right
    have hdne : Nat.digits outB (rsCore mulB outB ds d).2 ≠ [] :=
      Nat.digits_ne_nil_iff_ne_zero.mpr hc
    have hgl := Nat.getLast_digit_ne_zero outB hc
    have hstep : rebaseStep mulB outB ds d =
        (rsCore mulB outB ds d).1 ++ carryDigits outB (rsCore mulB outB ds d).2 := rfl
    rw [hstep, carryDigits_eq outB _ hout,
        List.getLast?_append_of_ne_nil _ hdne,
        List.getLast?_eq_getLast_of_ne_nil hdne]
    intro h
    exact hgl (by injection h)

theorem rebase_inv (mulB outB : Nat) (hm : 0 < mulB) (hout : 1 < outB)
    (input : List Nat) : DigInv (rebase mulB outB input) := by
  have : ∀ (l : List Nat) (ds : List Nat), DigInv ds →
      DigInv (l.foldl (rebaseStep mulB outB) ds) := by
    intro l
    induction l with
    | nil => intro ds h; exact h
    | cons x xs ih =>
        intro ds h
        exact ih _ (rebaseStep_inv mulB outB hm hout ds h x)
  exact this input [0] ⟨by simp, Or.inl rfl⟩

theorem rebase_val (mulB outB : Nat) (hout : 1 < outB) (input : List Nat) :
    Nat.ofDigits outB (rebase mulB outB input) = beVal mulB input := by
  have : ∀ (l : List Nat) (ds : List Nat) (a : Nat),
      Nat.ofDigits outB ds = a →
      Nat.ofDigits outB (l.foldl (rebaseStep mulB outB) ds) =
        l.foldl (fun a d => a * mulB + d) a := by
    intro l
    induction l with
    | nil => intro ds a h; simpa using h
    | cons x xs ih =>
        intro ds a h
        simp only [List.foldl_cons]
        refine ih _ _ ?_
        rw [rebaseStep_val mulB outB hout, h]
        ring
  exact this input [0] 0 (by simp [Nat.ofDigits])

theorem rebase_mem_lt (mulB outB : Nat) (hout : 1 < outB) (input : List Nat) :
    ∀ x ∈ rebase mulB outB input, x < outB := by
  have : ∀ (l : List Nat) (ds : List Nat), (∀ x ∈ ds, x < outB) →
      ∀ x ∈ l.foldl (rebaseStep mulB outB) ds, x < outB := by
    intro l
    induction l with
    | nil => intro ds h; exact h
    | cons y ys ih =>
        intro ds h
        exact ih _ (rebaseStep_mem_lt mulB outB hout ds y)
  exact this input [0] (by intro x hx; simp at hx; omega)

theorem ofDigits_pos_of_getLast_ne_zero (b : Nat) (hb : 0 < b) :
    ∀ (l : List Nat), l ≠ [] → l.getLast? ≠ some 0 → 0 < Nat.ofDigits b l := by
  intro l
  induction l with
  | nil => intro h; exact absurd rfl h
  | cons d tl ih =>
      intro _ hlast
      cases tl with
      | nil =>
          have hd : d ≠ 0 := by simpa using hlast
          simp only [Nat.ofDigits_cons, Nat.ofDigits_nil]
          omega
      | cons d2 tl2 =>
          rw [List.getLast?_cons_cons] at hlast
          have hpos := ih (by simp) hlast
          rw [Nat.ofDigits_cons]
          have h2 : 0 < b * Nat.ofDigits b (d2 :: tl2) := Nat.mul_pos hb hpos
          omega

theorem rebase_eq_zero (mulB outB : Nat) (hm : 0 < mulB) (hout : 1 < outB)
    (input : List Nat) (h : beVal mulB input = 0) :
    rebase mulB outB input = [0] := by
  obtain ⟨hne, hshape⟩ := rebase_inv mulB outB hm hout input
  rcases hshape with h0 | hlast
  · exact h0
  · have := ofDigits_pos_of_getLast_ne_zero outB (by omega) _ hne hlast
    rw [rebase_val mulB outB hout, h] at this
    omega

theorem rebase_eq_digits (mulB outB : Nat) (hm : 0 < mulB) (hout : 1 < outB)
    (input : List Nat) (h : beVal mulB input ≠ 0) :
    rebase mulB outB input = Nat.digits outB (beVal mulB input) := by
  obtain ⟨hne, hshape⟩ := rebase_inv mulB outB hm hout input
  have hval := rebase_val mulB outB hout input
  have hlast : (rebase mulB outB input).getLast? ≠ some 0 := by
    rcases hshape with h0 | hl
    · exfalso; apply h; rw [← hval, h0]; simp [Nat.ofDigits]
    · exact hl
  have := Nat.digits_ofDigits outB hout (rebase mulB outB input)
    (rebase_mem_lt mulB outB hout input)
    (by
      intro hne' hc
      apply hlast
      rw [List.getLast?_eq_getLast_of_ne_nil hne', hc])
  rw [hval] at this
  exact this.symm

/-! ## Arithmetic helpers for digit lengths and big-endian values -/

theorem digits_len_le_of_lt_pow {b N n : Nat} (hb : 1 < b) (h : N < b ^ n) :
    (Nat.digits b N).length ≤ n := by
  by_contra hgt
  push_neg at hgt
  rcases Nat.eq_zero_or_pos N with h0 | hpos
  · subst h0; simp at hgt
  · have h1 := Nat.base_pow_length_digits_le b N hb (by omega)
    have h2 : b ^ (n + 1) ≤ b ^ (Nat.digits b N).length :=
      Nat.pow_le_pow_right (by omega) (by omega)
    have h3 : b * b ^ n ≤ b * N := by
      calc b * b ^ n = b ^ (n + 1) := by ring
      _ ≤ b ^ (Nat.digits b N).length := h2
      _ ≤ b * N := h1
    have := Nat.le_of_mul_le_mul_left h3 (by omega)
    omega

theorem beVal_append_replicate_zero (b : Nat) (n : Nat) (l : List Nat) :
    beVal b (List.replicate n 0 ++ l) = beVal b l := by
  induction n with
  | zero => simp
  | succ m ih => simpa [beVal, List.replicate_succ] using ih

theorem beVal_reverse_eq_ofDigits (b : Nat) (l : List Nat) :
    beVal b l.reverse = Nat.ofDigits b l := by
  induction l with
  | nil => simp [beVal]
  | cons d tl ih =>
      have step : ∀ (xs : List Nat) (a d : Nat),
          (xs ++ [d]).foldl (fun a d => a * b + d) a =
          (xs.foldl (fun a d => a * b + d) a) * b + d := by
        intro xs
        induction xs with
        | nil => intro a d; rfl
        | cons y ys ihy => intro a d; simpa using ihy _ _
      simp only [List.reverse_cons, beVal] at ih ⊢
      rw [step, Nat.ofDigits_cons, ← ih]
      ring

theorem beVal_lt_pow (b : Nat) (hb : 1 < b) (l : List Nat)
    (h : ∀ x ∈ l, x < b) : beVal b l < b ^ l.length := by
  rw [← List.reverse_reverse l, beVal_reverse_eq_ofDigits]
  have hlt := Nat.ofDigits_lt_base_pow_length (b := b) (l := l.reverse) hb
    (by intro x hx; exact h x (List.mem_reverse.mp hx))
  simpa using hlt

theorem beVal_head_le (b : Nat) (d : Nat) (l : List Nat) :
    d * b ^ l.length ≤ beVal b (d :: l) := by
  induction l generalizing d with
  | nil => simp [beVal]
  | cons e tl ih =>
      have h1 : (d * b + e) * b ^ tl.length ≤ beVal b ((d * b + e) :: tl) := ih _
      have h2 : beVal b (d :: e :: tl) = beVal b ((d * b + e) :: tl) := by
        simp [beVal]
      rw [h2, List.length_cons, pow_succ]
      calc d * (b ^ tl.length * b) = (d * b) * b ^ tl.length := by ring
      _ ≤ (d * b + e) * b ^ tl.length := Nat.mul_le_mul_right _ (by omega)
      _ ≤ beVal b ((d * b + e) :: tl) := h1

/-! ## Base58 round-trip -/

theorem base58_digits_eq_map (l : List Nat)
    (h : ∀ c ∈ l, ¬ (BASE58_DECODE_TABLE.getD c (-1) < 0)) :
    base58_digits l = some (l.map (fun c => (BASE58_DECODE_TABLE.getD c (-1)).toNat)) := by
  induction l with
  | nil => rfl
  | cons c cs ih =>
      have hc := h c (by simp)
      have hcs := ih (fun x hx => h x (by simp [hx]))
      simp only [base58_digits, hcs, List.map_cons]
      rw [if_neg hc]

theorem dropWhile_head_false (p : Nat → Bool) :
    ∀ (l : List Nat) (c : Nat) (cs : List Nat), l.dropWhile p = c :: cs → p c = false := by
  intro l
  induction l with
  | nil => intro c cs h; simp [List.dropWhile] at h
  | cons x xs ih =>
      intro c cs h
      by_cases hx : p x
      · rw [List.dropWhile_cons_of_pos hx] at h
        exact ih c cs h
      · rw [List.dropWhile_cons_of_neg hx] at h
        injection h with h1 h2
        subst h1
        simpa using hx

theorem takeWhile_replicate_append (a : Nat) (p : Nat → Bool) (hpa : p a = true)
    (n : Nat) (l : List Nat) (hl : ∀ c cs, l = c :: cs → p c = false) :
    (List.replicate n a ++ l).takeWhile p = List.replicate n a := by
  induction n with
  | zero =>
      simp only [List.replicate_zero, List.nil_append]
      cases l with
      | nil => rfl
      | cons c cs => rw [List.takeWhile_cons_of_neg (by simp [hl c cs rfl])]
  | succ m ih =>
      simp only [List.replicate_succ, List.cons_append]
      rw [List.takeWhile_cons_of_pos hpa, ih]

/-- Alphabet/table consistency: each of the 58 alphabet characters is
mapped back to its index by the decode table. -/
theorem base58_table_alphabet :
    ∀ d, d < 58 → BASE58_DECODE_TABLE.getD (BASE58_ALPHABET.getD d 0) (-1) = (d : Int) := by
  decide

theorem base58_alphabet_ne_one :
    ∀ d, d < 58 → d ≠ 0 → BASE58_ALPHABET.getD d 0 ≠ 49 := by
  decide

/-- Evaluation of `base58_decode` when every character is valid and
neither size guard fires. -/
theorem base58_decode_spec (input digits : List Nat) (max_output_len : Nat)
    (hne : ¬ input.length = 0)
    (hd : base58_digits input = some digits)
    (hbuf : (rebase 58 256 digits).length ≤ input.length)
    (hmax : (input.takeWhile (fun c => c == 49)).length +
      (rebase 58 256 digits).length ≤ max_output_len) :
    base58_decode input max_output_len =
      some (List.replicate (input.takeWhile (fun c => c == 49)).length 0 ++
              (rebase 58 256 digits).reverse,
            (input.takeWhile (fun c => c == 49)).length +
              (rebase 58 256 digits).length) := by
  unfold base58_decode
  rw [if_neg hne, hd, Option.some_bind]
  rw [if_neg (by omega), if_neg (by omega)]

/-- Evaluation of `base58_encode` when neither size guard fires. -/
theorem base58_encode_spec (input : Bytes) (output_size : Nat)
    (hne : ¬ (input.length = 0 ∨ output_size = 0))
    (hbuf : (rebase 256 58 input).length ≤ base58_encode_size input.length)
    (hout : (input.takeWhile (fun b => b == 0)).length +
      (rebase 256 58 input).length + 1 ≤ output_size) :
    base58_encode input output_size =
      some (List.replicate (input.takeWhile (fun b => b == 0)).length 49 ++
        ((rebase 256 58 input).reverse.map (fun d => BASE58_ALPHABET.getD d 0))) := by
  unfold base58_encode
  rw [if_neg hne, if_neg (by omega), if_neg (by omega)]

/-- Decoding inverts encoding on every 32-byte input with at least one
non-zero byte, with the call-site buffer sizes (a 64-byte text buffer,
a 32-byte output buffer). -/
theorem base58_decode_encode (k : Bytes) (hk : k.length = 32)
    (hbytes : ∀ b ∈ k, b < 256) (hnz : ¬ ∀ b ∈ k, b = 0) :
    ∃ s, base58_encode k 64 = some s ∧ base58_decode s 32 = some (k, 32) := by
  classical
  -- decompose k into its leading zeros and the rest
  set t := k.takeWhile (fun b => b == 0) with ht
  set r := k.dropWhile (fun b => b == 0) with hr
  set L := t.length with hL
  have hsplit : t ++ r = k := by
    rw [ht, hr]; exact List.takeWhile_append_dropWhile _ _
  have htrep : t = List.replicate L 0 := by
    rw [hL]
    apply List.eq_replicate_of_mem
    intro b hb
    rw [ht] at hb
    have := List.mem_takeWhile_imp hb
    simpa using this
  have hrne : r ≠ [] := by
    intro h0
    apply hnz
    intro b hb
    rw [← hsplit, h0, List.append_nil, htrep] at hb
    exact List.eq_of_mem_replicate hb
  obtain ⟨m, rest, hmr⟩ := List.exists_cons_of_ne_nil hrne
  have hm0 : m ≠ 0 := by
    have := dropWhile_head_false (fun b => b == 0) k m rest (by rw [← hr, hmr])
    simpa using this
  have hrsub : ∀ b ∈ r, b < 256 := by
    intro b hb
    exact hbytes b (by rw [← hsplit]; exact List.mem_append_right _ hb)
  have hLr : L + r.length = 32 := by
    have := congrArg List.length hsplit
    simp only [List.length_append] at this
    omega
  -- the big-endian value of k
  set N := beVal 256 k with hN
  have hNr : N = beVal 256 r := by
    rw [hN, ← hsplit, htrep, beVal_append_replicate_zero]
  have hNlow : 256 ^ rest.length ≤ N := by
    rw [hNr, hmr]
    calc 256 ^ rest.length = 1 * 256 ^ rest.length := by ring
    _ ≤ m * 256 ^ rest.length := Nat.mul_le_mul_right _ (by omega)
    _ ≤ beVal 256 (m :: rest) := beVal_head_le 256 m rest
  have hNne : N ≠ 0 := by
    have h1 : 0 < 256 ^ rest.length := Nat.pos_pow_of_pos _ (by omega)
    omega
  have hNhi : N < 256 ^ (32 - L) := by
    have := beVal_lt_pow 256 (by omega) r hrsub
    rw [← hNr] at this
    have hlen : r.length = 32 - L := by omega
    rwa [hlen] at this
  -- the base-58 digits computed by the encoder
  set ds := rebase 256 58 k with hds
  have hdseq : ds = Nat.digits 58 N := by
    rw [hds, hN]
    exact rebase_eq_digits 256 58 (by omega) (by omega) k (by rw [← hN]; exact hNne)
  have hdslt : ∀ x ∈ ds, x < 58 := by
    rw [hdseq]; intro x hx; exact Nat.digits_lt_base (by omega) hx
  have hdsne : ds ≠ [] := by
    rw [hdseq]; exact Nat.digits_ne_nil_iff_ne_zero.mpr hNne
  have hdl44 : ds.length ≤ 44 := by
    rw [hdseq]
    apply digits_len_le_of_lt_pow (by omega)
    calc N < 256 ^ (32 - L) := hNhi
    _ ≤ 256 ^ 32 := Nat.pow_le_pow_right (by omega) (by omega)
    _ ≤ 58 ^ 44 := by norm_num
  have hdlfine : L + ds.length ≤ 63 := by
    rcases Nat.eq_zero_or_pos L with h0 | hpos
    · omega
    · have h2 : N < 58 ^ (2 * (32 - L)) := by
        calc N < 256 ^ (32 - L) := hNhi
        _ ≤ (58 ^ 2) ^ (32 - L) := Nat.pow_le_pow_left (by omega) _
        _ = 58 ^ (2 * (32 - L)) := by rw [← pow_mul]
      have h3 : ds.length ≤ 2 * (32 - L) := by
        rw [hdseq]; exact digits_len_le_of_lt_pow (by omega) h2
      have hrpos : r.length ≠ 0 := by
        intro h; exact hrne (List.length_eq_zero.mp h)
      omega
  have hrlen_le : r.length ≤ ds.length := by
    by_contra hgt
    push_neg at hgt
    have h1 : 58 ^ rest.length ≤ 256 ^ rest.length :=
      Nat.pow_le_pow_left (by omega) _
    have h2 : N < 58 ^ ds.length := by
      rw [hdseq]; exact Nat.lt_base_pow_length_digits (by omega)
    have h3 : 58 ^ rest.length < 58 ^ ds.length := by omega
    have h4 : rest.length < ds.length :=
      (Nat.pow_lt_pow_iff_right (by omega)).mp h3
    have h5 : r.length = rest.length + 1 := by rw [hmr]; simp
    omega
  -- the encoder's output string
  set s := List.replicate L 49 ++
    (ds.reverse.map (fun d => BASE58_ALPHABET.getD d 0)) with hs
  have henc : base58_encode k 64 = some s := by
    rw [base58_encode_spec k 64 (by omega)
      (by rw [← hds, base58_encode_size, hk]; omega)
      (by rw [← ht, ← hL, ← hds]; omega)]
  refine ⟨s, henc, ?_⟩
  -- character-level facts about s
  have hsdigits : ∀ c ∈ s, ¬ (BASE58_DECODE_TABLE.getD c (-1) < 0) := by
    intro c hc
    rw [hs] at hc
    rcases List.mem_append.mp hc with hc | hc
    · have := List.eq_of_mem_replicate hc
      subst this
      decide
    · obtain ⟨d, hd, rfl⟩ := List.mem_map.mp hc
      have hd58 : d < 58 := hdslt d (List.mem_reverse.mp hd)
      rw [base58_table_alphabet d hd58]
      omega
  have h49 : ((BASE58_DECODE_TABLE.getD 49 (-1)) : Int).toNat = 0 := by decide
  have hmap : s.map (fun c => (BASE58_DECODE_TABLE.getD c (-1)).toNat) =
      List.replicate L 0 ++ ds.reverse := by
    rw [hs, List.map_append, List.map_replicate, List.map_map]
    have hpt : ∀ d ∈ ds.reverse,
        ((fun c => (BASE58_DECODE_TABLE.getD c (-1)).toNat) ∘
          (fun d => BASE58_ALPHABET.getD d 0)) d = d := by
      intro d hd
      have hd58 : d < 58 := hdslt d (List.mem_reverse.mp hd)
      simp only [Function.comp_apply]
      rw [base58_table_alphabet d hd58]
      simp
    rw [List.map_congr_left hpt, List.map_id']
    congr 1
  -- the leading '1' count of s is exactly L
  obtain ⟨dl, dls, hdsplit⟩ := List.exists_cons_of_ne_nil
    (by simpa using hdsne : ds.reverse ≠ [])
  have hdlast : ds.getLast? = some dl := by
    rw [← List.head?_reverse, hdsplit]; rfl
  have hgl : ds.getLast hdsne ≠ 0 := by
    revert hdsne
    rw [hdseq]
    intro hne2
    exact Nat.getLast_digit_ne_zero 58 hNne
  have hdlne : dl ≠ 0 := by
    have h5 := List.getLast?_eq_getLast_of_ne_nil hdsne
    rw [hdlast] at h5
    injection h5 with h5
    rw [h5]
    exact hgl
  have hdl58 : dl < 58 := hdslt dl (by rw [← List.mem_reverse, hdsplit]; simp)
  have hones : (s.takeWhile (fun c => c == 49)).length = L := by
    rw [hs, hdsplit, List.map_cons]
    rw [takeWhile_replicate_append 49 _ (by simp) L _ (by
      intro c cs hcc
      injection hcc with h1 _
      subst h1
      simpa using base58_alphabet_ne_one dl hdl58 hdlne)]
    simp
  -- now run the decoder
  have hslen : s.length = L + ds.length := by
    rw [hs]; simp
  -- value of the reconstructed byte buffer
  have hval : beVal 58 (List.replicate L 0 ++ ds.reverse) = N := by
    rw [beVal_append_replicate_zero, beVal_reverse_eq_ofDigits, hdseq,
        Nat.ofDigits_digits]
  set bs := rebase 58 256 (List.replicate L 0 ++ ds.reverse) with hbs
  have hbseq : bs = Nat.digits 256 N := by
    rw [hbs, rebase_eq_digits 58 256 (by omega) (by omega) _ (by rw [hval]; exact hNne), hval]
  have hbsr : bs = r.reverse := by
    rw [hbseq]
    have hofd : Nat.ofDigits 256 r.reverse = N := by
      rw [← beVal_reverse_eq_ofDigits, List.reverse_reverse, hNr]
    rw [← hofd]
    apply Nat.digits_ofDigits 256 (by omega)
    · intro x hx
      exact hrsub x (List.mem_reverse.mp hx)
    · intro hne'
      have h1 : r.reverse.getLast? = some m := by
        rw [List.getLast?_reverse, hmr]; rfl
      rw [List.getLast?_eq_getLast_of_ne_nil hne'] at h1
      injection h1 with h1
      rw [h1]
      exact hm0
  have hbslen : bs.length = r.length := by rw [hbsr]; simp
  rw [base58_decode_spec s (List.replicate L 0 ++ ds.reverse) 32
    (by rw [hslen]; intro hcc; exact hdsne (List.length_eq_zero.mp (by omega)))
    (by rw [base58_digits_eq_map s hsdigits, hmap])
    (by rw [← hbs, hbslen, hslen]; omega)
    (by rw [← hbs, hbslen, hones]; omega)]
  rw [hones, ← hbs, hbslen, hbsr, List.reverse_reverse]
  have hfin : List.replicate L 0 ++ r = k := by rw [← htrep, hsplit]
  rw [hfin, hLr]

/-- Claim C8 (amended): for every 32-byte public key `k` that contains
at least one non-zero byte, `base58_decode` applied to the output of
`base58_encode` returns exactly `k` with output length 32 (using the
call-site buffer sizes: a 64-byte text buffer for encoding and a
32-byte output limit for decoding).  Keys with leading zero bytes
round-trip; only the all-zero key does not (see the counterexample). -/
theorem c8_base58_roundtrip (k : Bytes) (hk : k.length = 32)
    (hbytes : ∀ b ∈ k, b < 256) (hnz : ¬ ∀ b ∈ k, b = 0) :
    ∃ s, base58_encode k 64 = some s ∧ base58_decode s 32 = some (k, 32) :=
  base58_decode_encode k hk hbytes hnz

/-- Witness for C8: the key `0^31 ∥ 0x07` satisfies the hypotheses and
round-trips. -/
theorem c8_base58_roundtrip_witness :
    ((List.replicate 31 0 ++ [7] : Bytes).length = 32 ∧
      (∀ b ∈ (List.replicate 31 0 ++ [7] : Bytes), b < 256) ∧
      ¬ ∀ b ∈ (List.replicate 31 0 ++ [7] : Bytes), b = 0) ∧
    ∃ s, base58_encode (List.replicate 31 0 ++ [7]) 64 = some s ∧
      base58_decode s 32 = some (List.replicate 31 0 ++ [7], 32) :=
  ⟨⟨by decide, by decide, by decide⟩,
   c8_base58_roundtrip _ (by decide) (by decide) (by decide)⟩

/-! ## Generic inversion and length lemmas -/

theorem except_bind_ok {ε α β : Type} (x : Except ε α) (f : α → Except ε β)
    (b : β) : (x >>= f) = .ok b ↔ ∃ a, x = .ok a ∧ f a = .ok b := by
  cases x <;> simp [Bind.bind, Except.bind]

theorem putBytes_ok {max : Nat} {buf bs r : Bytes} :
    putBytes max buf bs = .ok r ↔
      buf.length + bs.length ≤ max ∧ r = buf ++ bs := by
  unfold putBytes
  split
  · constructor
    · intro hcon
      exact Except.noConfusion hcon
    · intro ⟨h1, _⟩
      omega
  · constructor
    · intro heq
      injection heq with heq
      exact ⟨by omega, heq.symm⟩
    · rintro ⟨_, rfl⟩
      rfl

theorem leBytes_length (n v : Nat) : (leBytes n v).length = n := by
  induction n generalizing v with
  | zero => rfl
  | succ m ih => simp [leBytes, ih]

theorem leBytes_lt (n v : Nat) : ∀ b ∈ leBytes n v, b < 256 := by
  induction n generalizing v with
  | zero => simp [leBytes]
  | succ m ih =>
      intro b hb
      simp only [leBytes, List.mem_cons] at hb
      rcases hb with rfl | hb
      · exact Nat.mod_lt _ (by omega)
      · exact ih _ b hb

theorem edPack_length (p : EdPoint) : (edPack p).length = 32 := by
  obtain ⟨x, y, z, w⟩ := p
  simp [edPack, leBytes_length]

theorem ed25519_sign_length (secret msg : Bytes) :
    (ed25519_sign secret msg).length = 64 := by
  unfold ed25519_sign
  rw [List.length_append, edPack_length, leBytes_length]

/-! ## Base64 round-trip -/

theorem b64dval_chr : ∀ n, n < 64 → b64dval (b64chr n) = some n := by decide

theorem b64chr_ne_eq : ∀ n, n < 64 → (b64chr n == 61) = false := by decide

theorem b64decode_encode (l : Bytes) (h : ∀ b ∈ l, b < 256) :
    b64decode (b64encode l) = some l := by
  induction l using b64encode.induct with
  | case1 => rfl
  | case2 a =>
      have ha : a < 256 := h a (by simp)
      unfold b64encode b64decode
      rw [b64dval_chr (a / 4) (by omega), b64dval_chr (a % 4 * 16) (by omega)]
      norm_num
      omega
  | case3 a b =>
      have ha : a < 256 := h a (by simp)
      have hb : b < 256 := h b (by simp)
      unfold b64encode b64decode
      rw [b64dval_chr (a / 4) (by omega), b64dval_chr (a % 4 * 16 + b / 16) (by omega)]
      rw [b64chr_ne_eq (b % 16 * 4) (by omega)]
      rw [b64dval_chr (b % 16 * 4) (by omega)]
      norm_num
      constructor <;> omega
  | case4 a b c rest ih =>
      have ha : a < 256 := h a (by simp)
      have hb : b < 256 := h b (by simp)
      have hc : c < 256 := h c (by simp)
      have hrest := ih (fun x hx => h x (by simp [hx]))
      unfold b64encode b64decode
      rw [b64dval_chr (a / 4) (by omega), b64dval_chr (a % 4 * 16 + b / 16) (by omega)]
      rw [b64chr_ne_eq (c % 64) (by omega)]
      rw [b64dval_chr (b % 16 * 4 + c / 64) (by omega), b64dval_chr (c % 64) (by omega)]
      simp only [hrest, Option.map_some]
      norm_num
      refine ⟨?_, ?_, ?_⟩ <;> omega

theorem b64chr_lt (n : Nat) : b64chr n < 256 := by
  have hmem : ∀ c ∈ B64_ALPHABET, c < 256 := by decide
  unfold b64chr List.getD
  cases h : B64_ALPHABET.get? n with
  | none => simp
  | some c => simpa using hmem c (List.get?_mem h)

theorem b64encode_lt (l : Bytes) : ∀ b ∈ b64encode l, b < 256 := by
  induction l using b64encode.induct with
  | case1 => simp [b64encode]
  | case2 a =>
      intro x hx
      simp only [b64encode, List.mem_cons, List.not_mem_nil, or_false] at hx
      rcases hx with rfl | rfl | rfl | rfl
      · exact b64chr_lt _
      · exact b64chr_lt _
      · omega
      · omega
  | case3 a b =>
      intro x hx
      simp only [b64encode, List.mem_cons, List.not_mem_nil, or_false] at hx
      rcases hx with rfl | rfl | rfl | rfl
      · exact b64chr_lt _
      · exact b64chr_lt _
      · exact b64chr_lt _
      · omega
  | case4 a b c rest ih =>
      intro x hx
      simp only [b64encode, List.mem_cons] at hx
      rcases hx with rfl | rfl | rfl | rfl | hx
      · exact b64chr_lt _
      · exact b64chr_lt _
      · exact b64chr_lt _
      · exact b64chr_lt _
      · exact ih x hx


/-- One unfolding step of the double-and-add ladder. -/
theorem edLadder_succ (b : EdPoint) (s i : Nat) (acc : EdPoint) :
    edLadder b s (i + 1) acc =
      edLadder b s i
        (if (s >>> i) &&& 1 = 1 then edAdd (edAdd acc acc) b
         else edAdd acc acc) := rfl

/-- The ladder splits into a high-bit phase and a low-bit phase. -/
theorem edLadder_split (b : EdPoint) (s : Nat) (i j : Nat) (acc : EdPoint) :
    edLadder b s (i + j) acc = edLadder b s j (edLadder b (s >>> j) i acc) := by
  induction i generalizing acc with
  | zero =>
      rw [Nat.zero_add]
      rfl
  | succ m ih =>
      rw [Nat.succ_add, edLadder_succ, edLadder_succ, ih,
        show (s >>> j) >>> m = s >>> (m + j) from by
          rw [Nat.add_comm m j]; exact (Nat.shiftRight_add s j m).symm]

theorem cvLadder1 : edLadder edBase (cvR >>> 192) 64 edZero = cvPt1 := by decide

theorem cvLadder2 : edLadder edBase (cvR >>> 128) 64 cvPt1 = cvPt2 := by decide

theorem cvLadder3 : edLadder edBase (cvR >>> 64) 64 cvPt2 = cvPt3 := by decide

theorem cvLadder4 : edLadder edBase cvR 64 cvPt3 = cvPt4 := by decide

theorem cvScalarMul : edScalarMul cvR edBase = cvPt4 := by
  show edLadder edBase cvR 256 edZero = cvPt4
  calc edLadder edBase cvR 256 edZero
      = edLadder edBase cvR 192 (edLadder edBase (cvR >>> 192) 64 edZero) :=
        edLadder_split edBase cvR 64 192 edZero
    _ = edLadder edBase cvR 192 cvPt1 := by rw [cvLadder1]
    _ = edLadder edBase cvR 128 (edLadder edBase (cvR >>> 128) 64 cvPt1) :=
        edLadder_split edBase cvR 64 128 cvPt1
    _ = edLadder edBase cvR 128 cvPt2 := by rw [cvLadder2]
    _ = edLadder edBase cvR 64 (edLadder edBase (cvR >>> 64) 64 cvPt2) :=
        edLadder_split edBase cvR 64 64 cvPt2
    _ = edLadder edBase cvR 64 cvPt3 := by rw [cvLadder3]
    _ = cvPt4 := cvLadder4

theorem cvSign : ed25519_sign (List.replicate 64 7) (cvTx.drop 129) = cvSig := by
  simp only [ed25519_sign]
  rw [show leVal (sha512 ((sha512 ((List.replicate 64 7).take 32)).drop 32 ++
      cvTx.drop 129)) % ED_L = cvR from by decide]
  rw [cvScalarMul]
  decide

theorem cvMint : spl_token_get_mint_program cvRenv (List.replicate 31 0 ++ [2]) =
    (.ok (List.replicate 31 0 ++ [3]),
     [.ok { status := 200, body := some cvBhBody }]) := by decide

theorem cvBlockhash :
    x402_fetch_recent_blockhash [.ok { status := 200, body := some cvBhBody }] =
      (.ok (List.replicate 31 0 ++ [5]), []) := by decide

theorem cvBuilder : spl_token_create_transfer_transaction
    (List.replicate 31 0 ++ [4]) (List.replicate 32 7)
    (List.replicate 31 0 ++ [1]) (List.replicate 31 0 ++ [2])
    (List.replicate 31 0 ++ [3]) 100 (List.replicate 31 0 ++ [5]) 2048 =
    .ok cvTx := by decide

theorem cvRequirements : x402_parse_payment_requirements cvBody402 = .ok cvReq := by
  decide

theorem cvBuild : x402_build_payment_transaction cvWallet
    (List.replicate 31 0 ++ [4]) (List.replicate 31 0 ++ [1])
    (List.replicate 31 0 ++ [2]) (List.replicate 31 0 ++ [3]) 100 2048
    [.ok { status := 200, body := some cvBhBody }] = (.ok cvTx, []) := by
  unfold x402_build_payment_transaction
  simp only [solana_wallet_get_pubkey, cvBlockhash]
  rw [show cvWallet.public_key = List.replicate 32 7 from rfl]
  rw [cvBuilder]

theorem cvSignStep : solana_wallet_sign cvWallet (cvTx.drop 129) = .ok cvSig :=
  congrArg Except.ok cvSign

theorem cvEncode :
    x402_base64_encode (cvTx.take 65 ++ cvSig ++ cvTx.drop 129) 4096 =
      .ok (cvTxB64, 456) := by decide

theorem cvCreate : x402_create_solana_payment cvWallet cvReq cvRenv =
    (.ok cvPay, []) := by
  unfold x402_create_solana_payment
  rw [if_neg (by decide),
    show base58_decode cvReq.recipient 32 =
      some (List.replicate 31 0 ++ [1], 32) from by decide]
  dsimp only
  rw [if_neg (by decide),
    show base58_decode cvReq.asset 32 =
      some (List.replicate 31 0 ++ [2], 32) from by decide]
  dsimp only
  rw [if_neg (by decide),
    show x402_parse_amount cvReq.price_amount = .ok 100 from by decide]
  dsimp only
  rw [if_neg (by decide),
    show base58_decode cvReq.fee_payer 32 =
      some (List.replicate 31 0 ++ [4], 32) from by decide]
  dsimp only
  rw [if_neg (by decide), cvMint]
  dsimp only
  rw [cvBuild]
  dsimp only
  rw [cvSignStep]
  dsimp only
  rw [cvEncode]
  decide

theorem cvPayEncode : x402_encode_payment_payload cvPay 8192 = .ok cvEnc := by
  decide

theorem cvHttp1 : http_request cvHenv =
    (.ok (402, hContentLength ++ [58, 32, 50, 48, 57, 13, 10], some cvBody402, 209),
     [.ok cvResp2]) := by decide

theorem cvHttp2 : http_request [.ok cvResp2] =
    (.ok (402, hContentLength ++ [58, 32, 48, 13, 10], none, 0), []) := by decide

theorem cvNoHeader :
    x402_extract_header (hContentLength ++ [58, 32, 48, 13, 10])
      hXPaymentResponse 4096 = none := by decide


/-- Counterexample for C8 as frozen: the all-zero 32-byte key encodes
to thirty-three `'1'` characters (the conversion buffer always holds at
least one digit, so one extra `'1'` is emitted after the 32 leading-zero
markers), and decoding that string yields 34 zero bytes — which
overflows a 32-byte output buffer (`none`), and with a roomier buffer
returns a 34-byte value different from the key.  So
`Base58.decode (Base58.encode k)` is not `k` for the all-zero key. -/
theorem c8_base58_counterexample :
    base58_encode (List.replicate 32 0) 64 = some (List.replicate 33 49) ∧
    base58_decode (List.replicate 33 49) 32 = none ∧
    base58_decode (List.replicate 33 49) 64 = some (List.replicate 34 0, 34) := by
  decide


/-! ## Small inversion lemmas about the embedded components -/

theorem strtoull10_lt (s : Bytes) : (strtoull10 s).1 < 2 ^ 64 := by
  unfold strtoull10
  dsimp only
  split
  · norm_num
  · dsimp only
    split
    · exact Nat.mod_lt _ (by norm_num)
    · exact lt_of_le_of_lt (Nat.min_le_right _ _) (by norm_num)

theorem base58_decode_some_length {input : List Nat} {m : Nat} {bs : Bytes}
    {n : Nat} (h : base58_decode input m = some (bs, n)) : bs.length = n := by
  unfold base58_decode at h
  split at h
  · exact absurd h (by simp)
  · cases hd : base58_digits input with
    | none => rw [hd] at h; exact absurd h (by simp)
    | some ds =>
        rw [hd] at h
        simp only [Option.some_bind] at h
        split at h
        · exact absurd h (by simp)
        · split at h
          · exact absurd h (by simp)
          · injection h with h
            injection h with h1 h2
            subst h1
            subst h2
            simp

/-! ## Digest length of the embedded SHA-2 -/

theorem shaRound_length (cfg : ShaCfg) (st : List Nat) (kw : Nat × Nat) :
    (shaRound cfg st kw).length = st.length := by
  unfold shaRound
  split
  · simp
  · rfl

theorem foldl_shaRound_length (cfg : ShaCfg) (l : List (Nat × Nat)) :
    ∀ st : List Nat, (l.foldl (shaRound cfg) st).length = st.length := by
  induction l with
  | nil => intro st; rfl
  | cons a tl ih =>
      intro st
      simp only [List.foldl_cons]
      rw [ih, shaRound_length]

theorem shaCompress_length (cfg : ShaCfg) (st block : List Nat) :
    (shaCompress cfg st block).length = st.length := by
  unfold shaCompress
  simp [foldl_shaRound_length]

theorem shaBlocks_length (cfg : ShaCfg) :
    ∀ (fuel : Nat) (ws st : List Nat),
      (shaBlocks cfg fuel ws st).length = st.length := by
  intro fuel
  induction fuel with
  | zero => intro ws st; rfl
  | succ m ih =>
      intro ws st
      unfold shaBlocks
      split
      · rfl
      · rw [ih, shaCompress_length]

theorem beBytes_length (n v : Nat) : (beBytes n v).length = n := by
  induction n generalizing v with
  | zero => rfl
  | succ m ih => simp [beBytes, ih]

theorem foldr_beBytes_length (k : Nat) (l : List Nat) :
    (l.foldr (fun w acc => beBytes k w ++ acc) []).length = l.length * k := by
  induction l with
  | nil => simp
  | cons a tl ih =>
      simp [List.foldr_cons, beBytes_length, ih, Nat.succ_mul, Nat.add_comm]

theorem sha256_length (msg : Bytes) : (sha256 msg).length = 32 := by
  unfold sha256 shaHash
  dsimp only
  rw [foldr_beBytes_length, shaBlocks_length]
  rfl

/-! ## The PDA bump search -/

theorem fpaLoop_succ (seeds : List Bytes) (pid : Bytes) (m : Nat) :
    fpaLoop seeds pid (m + 1) =
      if is_on_curve (pda_hash seeds pid m) then fpaLoop seeds pid m
      else .ok (pda_hash seeds pid m, m) := rfl

theorem fpaLoop_ok_hash {seeds : List Bytes} {pid : Bytes} {r : Bytes × Nat} :
    ∀ {n : Nat}, fpaLoop seeds pid n = .ok r → r.1 = pda_hash seeds pid r.2 := by
  intro n
  induction n with
  | zero => intro h; exact Except.noConfusion h
  | succ m ih =>
      intro h
      rw [fpaLoop_succ] at h
      split at h
      · exact ih h
      · injection h with h
        subst h
        rfl

theorem fpaLoop_eq_find (seeds : List Bytes) (pid : Bytes) :
    ∀ n : Nat,
      fpaLoop seeds pid n =
        (((List.range n).reverse).find?
            (fun b => ! is_on_curve (pda_hash seeds pid b))).elim
          (.error .fail) (fun b => .ok (pda_hash seeds pid b, b)) := by
  intro n
  induction n with
  | zero => rfl
  | succ m ih =>
      rw [List.range_succ, List.reverse_append]
      simp only [List.reverse_singleton, List.singleton_append]
      by_cases hc : is_on_curve (pda_hash seeds pid m)
      · rw [List.find?_cons_of_neg _ (by simp [hc])]
        calc fpaLoop seeds pid (m + 1) = fpaLoop seeds pid m := by
              rw [fpaLoop_succ, if_pos hc]
          _ = _ := ih
      · rw [List.find?_cons_of_pos _ (by simp [hc])]
        rw [fpaLoop_succ, if_neg hc]
        rfl

theorem find_program_address_eq_spec (seeds : List Bytes) (pid : Bytes) :
    find_program_address seeds pid =
      if 1024 < (seeds.flatten).length then .error .no_mem
      else find_program_address_spec seeds pid := by
  have h : fpaLoop seeds pid 256 = find_program_address_spec seeds pid := by
    rw [fpaLoop_eq_find seeds pid 256]
    unfold find_program_address_spec
    rfl
  unfold find_program_address
  by_cases hlen : 1024 < (seeds.flatten).length
  · rw [if_pos hlen, if_pos hlen]
  · rw [if_neg hlen, if_neg hlen, h]

theorem find_program_address_ok_hash {seeds : List Bytes} {pid : Bytes}
    {r : Bytes × Nat} (h : find_program_address seeds pid = .ok r) :
    r.1 = pda_hash seeds pid r.2 := by
  unfold find_program_address at h
  split at h
  · exact absurd h (by simp)
  · exact fpaLoop_ok_hash h

theorem ata_length {w m t : Bytes} {src : Bytes}
    (h : spl_token_get_associated_token_address_with_program w m t = .ok src) :
    src.length = 32 := by
  unfold spl_token_get_associated_token_address_with_program at h
  cases hf : find_program_address [w, t, m] SPL_ASSOCIATED_TOKEN_PROGRAM_ID with
  | error e => rw [hf] at h; exact absurd h (by simp [Except.map])
  | ok r =>
      rw [hf] at h
      simp only [Except.map] at h
      injection h with h
      rw [← h, find_program_address_ok_hash hf]
      unfold pda_hash
      exact sha256_length _

/-- C3: the ATA bump search of `find_program_address` refines the
spec's policy — apart from the 1024-byte seed-buffer guard, it returns
exactly the first bump from 255 downward whose SHA-256 hash is off the
Ed25519 curve (`ESP_FAIL` if there is none), and every address it
returns satisfies `is_on_curve = false`. -/
theorem c3_bump_search :
    (∀ (seeds : List Bytes) (program_id : Bytes),
      find_program_address seeds program_id =
        if 1024 < (seeds.flatten).length then .error .no_mem
        else find_program_address_spec seeds program_id) ∧
    (∀ (seeds : List Bytes) (program_id : Bytes),
      match find_program_address seeds program_id with
      | .ok r => is_on_curve r.1 = false
      | .error _ => True) := by
  constructor
  · intro seeds pid
    exact find_program_address_eq_spec seeds pid
  · intro seeds pid
    cases hf : find_program_address seeds pid with
    | error e => simp only [hf]
    | ok r =>
        simp only [hf]
        unfold find_program_address at hf
        split at hf
        · exact absurd hf (by simp)
        · rw [fpaLoop_eq_find] at hf
          cases hfind : ((List.range 256).reverse).find?
              (fun b => ! is_on_curve (pda_hash seeds pid b)) with
          | none =>
              rw [hfind] at hf
              rw [Option.elim_none] at hf
              exact Except.noConfusion hf
          | some b =>
              rw [hfind] at hf
              rw [Option.elim_some, Except.ok.injEq] at hf
              have hp := List.find?_some hfind
              subst hf
              simpa using hp

/-- C4 (amended): the amount string must be consumed entirely by
`strtoull(.., 10)` and yield a non-zero value; otherwise (no digits,
trailing bytes, or value zero — in particular the string `"0"`)
payment creation fails fatally before any RPC exchange is issued, the
RPC environment coming back untouched.  Values are always below
`2^64`.  (`strtoull` does accept leading white space and a sign, so
"non-digit content" does not always fail; see the counterexample.) -/
theorem c4_amount_guard (wallet : solana_wallet)
    (req : x402_payment_requirements) (renv : List (Except Esp RpcResp))
    (h : (strtoull10 req.price_amount).2 = 0 ∨
      (strtoull10 req.price_amount).2 ≠ req.price_amount.length ∨
      (strtoull10 req.price_amount).1 = 0) :
    (∀ (s : Bytes) (n : Nat), x402_parse_amount s = .ok n → n ≠ 0 ∧ n < 2 ^ 64) ∧
    x402_parse_amount req.price_amount = .error .fail ∧
    ∃ e, x402_create_solana_payment wallet req renv = (.error e, renv) := by
  have hparse : x402_parse_amount req.price_amount = .error .fail := by
    unfold x402_parse_amount
    dsimp only
    rcases h with h | h | h
    · rw [if_pos (Or.inl h)]
    · rw [if_pos (Or.inr h)]
    · by_cases hc : (strtoull10 req.price_amount).2 = 0 ∨
          (strtoull10 req.price_amount).2 ≠ req.price_amount.length
      · rw [if_pos hc]
      · rw [if_neg hc, if_pos h]
  refine ⟨?_, hparse, ?_⟩
  · intro s n hok
    unfold x402_parse_amount at hok
    dsimp only at hok
    split at hok
    · exact absurd hok (by simp)
    · split at hok
      · exact absurd hok (by simp)
      · rename_i h1 h2
        injection hok with hok
        subst hok
        exact ⟨h2, strtoull10_lt s⟩
  · unfold x402_create_solana_payment
    split
    · exact ⟨.invalid_state, rfl⟩
    split
    · exact ⟨.fail, rfl⟩
    split
    · exact ⟨.fail, rfl⟩
    split
    · exact ⟨.fail, rfl⟩
    split
    · exact ⟨.fail, rfl⟩
    rw [hparse]
    exact ⟨.fail, rfl⟩

/-- Witness for C4: for the amount string `"0"` the guard fires and
payment creation fails with the RPC environment untouched. -/
theorem c4_amount_guard_witness :
    x402_parse_amount [48] = .error .fail ∧
    ∃ e, x402_create_solana_payment ⟨[], []⟩
        { recipient := [], network := [], asset := [], price_amount := [48],
          price_currency := [], fee_payer := [], valid := true } [] =
      (.error e, []) :=
  (c4_amount_guard ⟨[], []⟩
    { recipient := [], network := [], asset := [], price_amount := [48],
      price_currency := [], fee_payer := [], valid := true } []
    (Or.inr (Or.inr (by decide)))).2

/-- Counterexample for C4 as frozen: `"-1"` and `" 5"` contain
non-digit bytes, yet the parse step accepts them — `strtoull` skips
white space and negates module `2^64`, so `"-1"` yields `ULLONG_MAX`
rather than a fatal AmountInvalid error. -/
theorem c4_counterexample :
    x402_parse_amount [45, 49] = .ok 18446744073709551615 ∧
    x402_parse_amount [32, 53] = .ok 5 ∧
    isDigitC 45 = false ∧ isDigitC 32 = false := by decide

/-- C9: when the initial request returns any status other than 402,
`x402_fetch` consumes exactly that one HTTP exchange and no RPC
exchange, and returns status, headers and body verbatim with
`payment_made = false` and a zeroed settlement. -/
theorem c9_non402_passthrough (wallet : solana_wallet)
    (headers body : Option Bytes) (r : HttpResp)
    (rest : List (Except Esp HttpResp)) (renv : List (Except Esp RpcResp))
    (h : r.status ≠ 402) :
    x402_fetch wallet headers body (.ok r :: rest) renv =
      (.ok { status_code := r.status
             headers := mkHeaderBlob r
             body := r.body
             body_len := (r.body.getD []).length
             payment_made := false
             settlement := settlementZero }, (rest, renv)) := by
  unfold x402_fetch http_request
  dsimp only
  rw [if_pos (by simp [x402_is_payment_required, h])]

/-- Witness for C9 at a concrete 200 response. -/
theorem c9_non402_passthrough_witness :
    x402_fetch ⟨[], []⟩ none none
      [.ok ⟨200, 2, none, some [104, 105]⟩] [] =
      (.ok { status_code := 200
             headers := mkHeaderBlob ⟨200, 2, none, some [104, 105]⟩
             body := some [104, 105]
             body_len := 2
             payment_made := false
             settlement := settlementZero }, ([], [])) :=
  c9_non402_passthrough ⟨[], []⟩ none none
    ⟨200, 2, none, some [104, 105]⟩ [] [] (by decide)

/-- C10: `spl_token_parse_usd_amount` always reports `ESP_OK` — for
every amount string and decimals count — and the legacy
`x402_payment.c` amount step inherits this; `"$0.10"` becomes 100000
micro-units at 6 decimals, `"1.5"` becomes 1500000, while `"0"`,
garbage and negative input all silently produce 0. -/
theorem c10_usd_amount_total :
    (∀ (s : Bytes) (decimals : Nat),
      ∃ a, spl_token_parse_usd_amount s decimals = .ok a) ∧
    (∀ req : x402_payment_requirements,
      ∃ a, x402_payment_amount_step req = .ok a) ∧
    spl_token_parse_usd_amount [36, 48, 46, 49, 48] 6 = .ok 100000 ∧
    spl_token_parse_usd_amount [49, 46, 53] 6 = .ok 1500000 ∧
    spl_token_parse_usd_amount [48] 6 = .ok 0 ∧
    spl_token_parse_usd_amount [103, 97, 114, 98, 97, 103, 101] 6 = .ok 0 ∧
    spl_token_parse_usd_amount [45, 49] 6 = .ok 0 := by
  refine ⟨fun s d => ⟨_, rfl⟩, fun req => ⟨_, rfl⟩, ?_, ?_, ?_, ?_, ?_⟩ <;>
    decide


/-! ## Shape of the transaction the SPL builder emits -/

theorem spl_build_instruction_ok (amount : Nat) :
    spl_token_build_transfer_instruction amount 32 =
      .ok (3 :: leBytes 8 amount) := by
  unfold spl_token_build_transfer_instruction
  rw [if_neg (by omega)]
  rfl

theorem spl_create_ok_shape {fp fw tw mint tp bh : Bytes}
    {amount maxLen : Nat} {tx : Bytes}
    (h : spl_token_create_transfer_transaction fp fw tw mint tp amount bh
      maxLen = .ok tx) :
    ∃ src dst,
      spl_token_get_associated_token_address_with_program fw mint tp =
        .ok src ∧
      spl_token_get_associated_token_address_with_program tw mint tp =
        .ok dst ∧
      tx = [2] ++ List.replicate 64 0 ++ List.replicate 64 0 ++ [2, 1, 1] ++
        [5] ++ fp ++ fw ++ src ++ dst ++ tp ++ bh ++ [1] ++ [4] ++
        [3, 2, 3, 1] ++ 9 :: 3 :: leBytes 8 amount := by
  unfold spl_token_create_transfer_transaction at h
  simp only [bind, Except.bind, pure, Except.pure] at h
  split at h
  · exact Except.noConfusion h
  rename_i src hsrc
  split at h
  · exact Except.noConfusion h
  rename_i dst hdst
  rw [spl_build_instruction_ok] at h
  dsimp only at h
  refine ⟨src, dst, hsrc, hdst, ?_⟩
  split at h
  · exact Except.noConfusion h
  rename_i t1 h1
  rw [putBytes_ok] at h1
  split at h
  · exact Except.noConfusion h
  rename_i t2 h2
  rw [putBytes_ok] at h2
  split at h
  · exact Except.noConfusion h
  rename_i t3 h3
  rw [putBytes_ok] at h3
  split at h
  · exact Except.noConfusion h
  rename_i t4 h4
  rw [putBytes_ok] at h4
  split at h
  · exact Except.noConfusion h
  rename_i t5 h5
  rw [putBytes_ok] at h5
  split at h
  · exact Except.noConfusion h
  rename_i t6 h6
  rw [putBytes_ok] at h6
  split at h
  · exact Except.noConfusion h
  rename_i t7 h7
  rw [putBytes_ok] at h7
  split at h
  · exact Except.noConfusion h
  rename_i t8 h8
  rw [putBytes_ok] at h8
  split at h
  · exact Except.noConfusion h
  rename_i t9 h9
  rw [putBytes_ok] at h9
  split at h
  · exact Except.noConfusion h
  rename_i t10 h10
  rw [putBytes_ok] at h10
  split at h
  · exact Except.noConfusion h
  rename_i t11 h11
  rw [putBytes_ok] at h11
  split at h
  · exact Except.noConfusion h
  rename_i t12 h12
  rw [putBytes_ok] at h12
  split at h
  · exact Except.noConfusion h
  rename_i t13 h13
  rw [putBytes_ok] at h13
  split at h
  · exact Except.noConfusion h
  rename_i t14 h14
  rw [putBytes_ok] at h14
  split at h
  · exact Except.noConfusion h
  rename_i t15 h15
  rw [putBytes_ok] at h15
  injection h with h
  subst h
  obtain ⟨-, rfl⟩ := h15
  obtain ⟨-, rfl⟩ := h14
  obtain ⟨-, rfl⟩ := h13
  obtain ⟨-, rfl⟩ := h12
  obtain ⟨-, rfl⟩ := h11
  obtain ⟨-, rfl⟩ := h10
  obtain ⟨-, rfl⟩ := h9
  obtain ⟨-, rfl⟩ := h8
  obtain ⟨-, rfl⟩ := h7
  obtain ⟨-, rfl⟩ := h6
  obtain ⟨-, rfl⟩ := h5
  obtain ⟨-, rfl⟩ := h4
  obtain ⟨-, rfl⟩ := h3
  obtain ⟨-, rfl⟩ := h2
  obtain ⟨-, rfl⟩ := h1
  simp [leBytes_length, List.append_assoc]

theorem take_65_front (l Z : Bytes) (hl : l.length = 64) :
    ([2] ++ (l ++ Z)).take 65 = 2 :: l := by
  have h : ([2] ++ (l ++ Z)) = (2 :: l) ++ Z := by simp
  rw [h]
  exact List.take_left' (by simp [hl])

theorem spl_create_ok_take65 {fp fw tw mint tp bh : Bytes}
    {amount maxLen : Nat} {tx : Bytes}
    (h : spl_token_create_transfer_transaction fp fw tw mint tp amount bh
      maxLen = .ok tx) :
    tx.take 65 = 2 :: List.replicate 64 0 := by
  obtain ⟨src, dst, -, -, rfl⟩ := spl_create_ok_shape h
  simp only [List.append_assoc]
  exact take_65_front _ _ (by simp)

theorem signed_layout (tx sig : Bytes) (hsig : sig.length = 64)
    (h65 : tx.take 65 = 2 :: List.replicate 64 0) :
    ((tx.take 65 ++ sig ++ tx.drop 129).drop 1).take 64 =
      List.replicate 64 0 ∧
    ((tx.take 65 ++ sig ++ tx.drop 129).drop 65).take 64 = sig ∧
    (tx.take 65 ++ sig ++ tx.drop 129).drop 129 = tx.drop 129 := by
  rw [h65]
  refine ⟨?_, ?_, ?_⟩
  · rw [List.append_assoc, List.cons_append, List.drop_one, List.tail_cons]
    exact List.take_left' (by simp)
  · rw [List.append_assoc,
      List.drop_left' (show ((2 : Nat) :: List.replicate 64 0).length = 65
        by simp)]
    exact List.take_left' hsig
  · rw [List.drop_left'
      (show (((2 : Nat) :: List.replicate 64 0) ++ sig).length = 129
        by simp [hsig])]

/-! ## Inversion of a successful `x402_create_solana_payment` -/

theorem create_ok_inv {wallet : solana_wallet}
    {req : x402_payment_requirements}
    {renv renv2 : List (Except Esp RpcResp)} {p : x402_payment_payload}
    (h : x402_create_solana_payment wallet req renv = (.ok p, renv2)) :
    ∃ (tx_data fpk rpk mpk tpid bh : Bytes) (amount : Nat),
      spl_token_create_transfer_transaction fpk wallet.public_key rpk mpk
        tpid amount bh 2048 = .ok tx_data ∧
      p = { x402_version := 1
            scheme := sExact.take 31
            network := req.network.take 63
            payload_transaction :=
              b64encode (tx_data.take 65 ++
                ed25519_sign wallet.secret_key (tx_data.drop 129) ++
                tx_data.drop 129) } := by
  unfold x402_create_solana_payment at h
  split at h
  · exact absurd (congrArg Prod.fst h) (by simp)
  split at h
  · exact absurd (congrArg Prod.fst h) (by simp)
  rename_i rpk rlen hrec
  split at h
  · exact absurd (congrArg Prod.fst h) (by simp)
  split at h
  · exact absurd (congrArg Prod.fst h) (by simp)
  rename_i mpk mlen hasset
  split at h
  · exact absurd (congrArg Prod.fst h) (by simp)
  split at h
  · exact absurd (congrArg Prod.fst h) (by simp)
  rename_i amount hamt
  split at h
  · exact absurd (congrArg Prod.fst h) (by simp)
  split at h
  · exact absurd (congrArg Prod.fst h) (by simp)
  rename_i fpk flen hfee
  split at h
  · exact absurd (congrArg Prod.fst h) (by simp)
  split at h
  · exact absurd (congrArg Prod.fst h) (by simp)
  rename_i tpid renv1 hmint
  split at h
  · exact absurd (congrArg Prod.fst h) (by simp)
  rename_i txd renv2a hbuild
  dsimp only at h
  split at h
  · exact absurd (congrArg Prod.fst h) (by simp)
  rename_i sig hsign
  split at h
  · exact absurd (congrArg Prod.fst h) (by simp)
  rename_i txb blen henc
  unfold solana_wallet_sign at hsign
  injection hsign with hsign
  unfold x402_base64_encode at henc
  split at henc
  · exact Except.noConfusion henc
  dsimp only at henc
  split at henc
  · exact Except.noConfusion henc
  injection henc with henc
  rw [Prod.mk.injEq] at henc
  obtain ⟨henc1, -⟩ := henc
  unfold x402_build_payment_transaction at hbuild
  simp only [solana_wallet_get_pubkey] at hbuild
  split at hbuild
  · exact absurd (congrArg Prod.fst hbuild) (by simp)
  rename_i bh renvB hbh
  have hb := congrArg Prod.fst hbuild
  dsimp only at hb
  have hp := congrArg Prod.fst h
  dsimp only at hp
  rw [Except.ok.injEq] at hp
  refine ⟨txd, fpk, rpk, mpk, tpid, bh, amount, hb, ?_⟩
  rw [← hp, ← henc1, ← hsign]

theorem drop_take_chunk (P c R : Bytes) (n m : Nat) (hP : P.length = n)
    (hc : c.length = m) : ((P ++ (c ++ R)).drop n).take m = c := by
  rw [List.drop_left' hP]
  exact List.take_left' hc

/-- C2: whenever the fee-payer-aware SPL transfer builder succeeds on
32-byte keys and blockhash, the transaction it returns is 341 bytes
laid out as: header `[2,1,1]` at offset 129, account count 5, account
table exactly `[fee_payer, payer, source_ata, dest_ata, token_program]`
at offsets 133/165/197/229/261, blockhash, then one instruction with
program index 4, account indices `[2,3,1]` and data-length 9 with data
`0x03` followed by the little-endian 64-bit amount. -/
theorem c2_transfer_layout (fp payer recipient mint tp bh : Bytes)
    (amount max_tx_len : Nat)
    (h1 : fp.length = 32) (h2 : payer.length = 32) (h3 : tp.length = 32)
    (h4 : bh.length = 32) :
    match spl_token_create_transfer_transaction fp payer recipient mint tp
        amount bh max_tx_len with
    | .ok tx => ∃ src dst,
        spl_token_get_associated_token_address_with_program payer mint tp =
          .ok src ∧
        spl_token_get_associated_token_address_with_program recipient mint
          tp = .ok dst ∧
        src.length = 32 ∧ dst.length = 32 ∧
        tx.length = 341 ∧
        (tx.drop 129).take 3 = [2, 1, 1] ∧
        (tx.drop 132).take 1 = [5] ∧
        (tx.drop 133).take 32 = fp ∧
        (tx.drop 165).take 32 = payer ∧
        (tx.drop 197).take 32 = src ∧
        (tx.drop 229).take 32 = dst ∧
        (tx.drop 261).take 32 = tp ∧
        (tx.drop 293).take 32 = bh ∧
        tx.drop 325 = [1, 4, 3, 2, 3, 1, 9, 3] ++ leBytes 8 amount
    | .error _ => True := by
  cases hE : spl_token_create_transfer_transaction fp payer recipient mint
      tp amount bh max_tx_len with
  | error e => simp only [hE]
  | ok tx =>
      simp only [hE]
      obtain ⟨src, dst, hsrc, hdst, htx⟩ := spl_create_ok_shape hE
      have hsl : src.length = 32 := ata_length hsrc
      have hdl : dst.length = 32 := ata_length hdst
      have htx' : tx =
          ([2] ++ List.replicate 64 0 ++ List.replicate 64 0) ++
            ([2, 1, 1] ++ ([5] ++ (fp ++ (payer ++ (src ++ (dst ++ (tp ++
              (bh ++ ([1] ++ ([4] ++ ([3, 2, 3, 1] ++
                (9 :: 3 :: leBytes 8 amount)))))))))))) := by
        rw [htx]
        simp [List.append_assoc]
      have d129 : tx.drop 129 =
          [2, 1, 1] ++ ([5] ++ (fp ++ (payer ++ (src ++ (dst ++ (tp ++
            (bh ++ ([1] ++ ([4] ++ ([3, 2, 3, 1] ++
              (9 :: 3 :: leBytes 8 amount))))))))))) := by
        rw [htx']
        exact List.drop_left' (by simp)
      have d132 : tx.drop 132 =
          [5] ++ (fp ++ (payer ++ (src ++ (dst ++ (tp ++ (bh ++ ([1] ++
            ([4] ++ ([3, 2, 3, 1] ++ (9 :: 3 :: leBytes 8 amount)))))))))) := by
        have e132 : tx.drop 132 = (tx.drop 129).drop 3 := by
          rw [List.drop_drop]
        rw [e132, d129]
        exact List.drop_left' (by simp)
      have d133 : tx.drop 133 =
          fp ++ (payer ++ (src ++ (dst ++ (tp ++ (bh ++ ([1] ++ ([4] ++
            ([3, 2, 3, 1] ++ (9 :: 3 :: leBytes 8 amount))))))))) := by
        have e133 : tx.drop 133 = (tx.drop 132).drop 1 := by
          rw [List.drop_drop]
        rw [e133, d132]
        exact List.drop_left' (by simp)
      have d165 : tx.drop 165 =
          payer ++ (src ++ (dst ++ (tp ++ (bh ++ ([1] ++ ([4] ++
            ([3, 2, 3, 1] ++ (9 :: 3 :: leBytes 8 amount)))))))) := by
        have e165 : tx.drop 165 = (tx.drop 133).drop 32 := by
          rw [List.drop_drop]
        rw [e165, d133]
        exact List.drop_left' h1
      have d197 : tx.drop 197 =
          src ++ (dst ++ (tp ++ (bh ++ ([1] ++ ([4] ++ ([3, 2, 3, 1] ++
            (9 :: 3 :: leBytes 8 amount))))))) := by
        have e197 : tx.drop 197 = (tx.drop 165).drop 32 := by
          rw [List.drop_drop]
        rw [e197, d165]
        exact List.drop_left' h2
      have d229 : tx.drop 229 =
          dst ++ (tp ++ (bh ++ ([1] ++ ([4] ++ ([3, 2, 3, 1] ++
            (9 :: 3 :: leBytes 8 amount)))))) := by
        have e229 : tx.drop 229 = (tx.drop 197).drop 32 := by
          rw [List.drop_drop]
        rw [e229, d197]
        exact List.drop_left' hsl
      have d261 : tx.drop 261 =
          tp ++ (bh ++ ([1] ++ ([4] ++ ([3, 2, 3, 1] ++
            (9 :: 3 :: leBytes 8 amount))))) := by
        have e261 : tx.drop 261 = (tx.drop 229).drop 32 := by
          rw [List.drop_drop]
        rw [e261, d229]
        exact List.drop_left' hdl
      have d293 : tx.drop 293 =
          bh ++ ([1] ++ ([4] ++ ([3, 2, 3, 1] ++
            (9 :: 3 :: leBytes 8 amount)))) := by
        have e293 : tx.drop 293 = (tx.drop 261).drop 32 := by
          rw [List.drop_drop]
        rw [e293, d261]
        exact List.drop_left' h3
      have d325 : tx.drop 325 =
          [1] ++ ([4] ++ ([3, 2, 3, 1] ++ (9 :: 3 :: leBytes 8 amount))) := by
        have e325 : tx.drop 325 = (tx.drop 293).drop 32 := by
          rw [List.drop_drop]
        rw [e325, d293]
        exact List.drop_left' h4
      refine ⟨src, dst, hsrc, hdst, hsl, hdl, ?_, ?_, ?_, ?_, ?_, ?_, ?_,
        ?_, ?_, ?_⟩
      · rw [htx]
        simp [h1, h2, h3, h4, hsl, hdl, leBytes_length]
      · rw [d129]
        exact List.take_left' (by simp)
      · rw [d132]
        exact List.take_left' (by simp)
      · rw [d133]
        exact List.take_left' h1
      · rw [d165]
        exact List.take_left' h2
      · rw [d197]
        exact List.take_left' hsl
      · rw [d229]
        exact List.take_left' hdl
      · rw [d261]
        exact List.take_left' h3
      · rw [d293]
        exact List.take_left' h4
      · rw [d325]
        simp

/-- Witness for C2 at the concrete test vector (all four length
hypotheses hold, and the builder does succeed on it). -/
theorem c2_transfer_layout_witness :
    (spl_token_create_transfer_transaction (List.replicate 31 0 ++ [4])
      (List.replicate 32 7) (List.replicate 31 0 ++ [1])
      (List.replicate 31 0 ++ [2]) (List.replicate 31 0 ++ [3]) 100
      (List.replicate 31 0 ++ [5]) 2048).isOk = true ∧
    (match spl_token_create_transfer_transaction (List.replicate 31 0 ++ [4])
        (List.replicate 32 7) (List.replicate 31 0 ++ [1])
        (List.replicate 31 0 ++ [2]) (List.replicate 31 0 ++ [3]) 100
        (List.replicate 31 0 ++ [5]) 2048 with
    | .ok tx => ∃ src dst,
        spl_token_get_associated_token_address_with_program
          (List.replicate 32 7) (List.replicate 31 0 ++ [2])
          (List.replicate 31 0 ++ [3]) = .ok src ∧
        spl_token_get_associated_token_address_with_program
          (List.replicate 31 0 ++ [1]) (List.replicate 31 0 ++ [2])
          (List.replicate 31 0 ++ [3]) = .ok dst ∧
        src.length = 32 ∧ dst.length = 32 ∧
        tx.length = 341 ∧
        (tx.drop 129).take 3 = [2, 1, 1] ∧
        (tx.drop 132).take 1 = [5] ∧
        (tx.drop 133).take 32 = List.replicate 31 0 ++ [4] ∧
        (tx.drop 165).take 32 = List.replicate 32 7 ∧
        (tx.drop 197).take 32 = src ∧
        (tx.drop 229).take 32 = dst ∧
        (tx.drop 261).take 32 = List.replicate 31 0 ++ [3] ∧
        (tx.drop 293).take 32 = List.replicate 31 0 ++ [5] ∧
        tx.drop 325 = [1, 4, 3, 2, 3, 1, 9, 3] ++ leBytes 8 100
    | .error _ => True) :=
  ⟨by rw [cvBuilder]; rfl,
   c2_transfer_layout (List.replicate 31 0 ++ [4]) (List.replicate 32 7)
     (List.replicate 31 0 ++ [1]) (List.replicate 31 0 ++ [2])
     (List.replicate 31 0 ++ [3]) (List.replicate 31 0 ++ [5]) 100 2048
     (by simp) (by simp) (by simp) (by simp)⟩

/-- C1: whenever `x402_create_solana_payment` succeeds, the payload's
transaction is the Base64 of a signed buffer whose byte 0 is the
signature count 2, whose first signature slot (bytes [1, 65)) is all
zeros for the facilitator, and whose second slot (bytes [65, 129))
holds exactly the device's Ed25519 signature over the message bytes
[129, end). -/
theorem c1_signature_slots (wallet : solana_wallet)
    (req : x402_payment_requirements) (renv : List (Except Esp RpcResp)) :
    match (x402_create_solana_payment wallet req renv).1 with
    | .ok p => ∃ signed,
        p.payload_transaction = b64encode signed ∧
        signed.take 1 = [2] ∧
        (signed.drop 1).take 64 = List.replicate 64 0 ∧
        (signed.drop 65).take 64 =
          ed25519_sign wallet.secret_key (signed.drop 129)
    | .error _ => True := by
  cases hE : x402_create_solana_payment wallet req renv with
  | mk res renv2 =>
      cases res with
      | error e =>
          simp only [hE]
      | ok p =>
          simp only [hE]
          obtain ⟨txd, fpk, rpk, mpk, tpid, bh, amount, hb, hp⟩ :=
            create_ok_inv hE
          subst hp
          have h65 := spl_create_ok_take65 hb
          have hlay := signed_layout txd
            (ed25519_sign wallet.secret_key (txd.drop 129))
            (ed25519_sign_length _ _) h65
          refine ⟨txd.take 65 ++
            ed25519_sign wallet.secret_key (txd.drop 129) ++
            txd.drop 129, rfl, ?_, hlay.1, ?_⟩
          · rw [h65, List.append_assoc, List.cons_append]
            rfl
          · rw [hlay.2.2]
            exact hlay.2.1

/-- C5: the payment envelope is flat — the serialized object has
exactly the top-level keys `x402Version`, `scheme`, `network`,
`payload` (no `kind` nesting), the transaction sits under
`payload.transaction`, the version field reads back as the payload's
version; a successfully encoded `X-PAYMENT` value Base64-decodes to
exactly that serialized object, and every payload the pipeline
produces carries `x402Version = 1` and scheme `"exact"`. -/
theorem c5_flat_envelope :
    (∀ p : x402_payment_payload,
      jsonTopKeys (x402_payload_json p) =
        [kX402Version, kScheme, kNetwork, kPayload] ∧
      jGet (some (x402_payload_json p)) kPayload =
        some (.obj [(kTransaction, .str p.payload_transaction)]) ∧
      jGet (some (x402_payload_json p)) kX402Version =
        some (.num p.x402_version)) ∧
    (∀ (p : x402_payment_payload) (maxLen : Nat) (enc : Bytes),
      x402_encode_payment_payload p maxLen = .ok enc →
      (∀ b ∈ x402_payload_to_json p, b < 256) →
      b64decode enc = some (x402_payload_to_json p)) ∧
    (∀ (wallet : solana_wallet) (req : x402_payment_requirements)
        (renv : List (Except Esp RpcResp)),
      match (x402_create_solana_payment wallet req renv).1 with
      | .ok p => p.x402_version = 1 ∧ p.scheme = sExact
      | .error _ => True) := by
  refine ⟨?_, ?_, ?_⟩
  · intro p
    exact ⟨rfl, rfl, rfl⟩
  · intro p maxLen enc henc hb
    unfold x402_encode_payment_payload at henc
    dsimp only at henc
    cases hX : x402_base64_encode (x402_payload_to_json p) maxLen with
    | error e =>
        rw [hX] at henc
        exact absurd henc (by simp [Except.map])
    | ok pr =>
        rw [hX] at henc
        simp only [Except.map] at henc
        injection henc with henc
        unfold x402_base64_encode at hX
        split at hX
        · exact Except.noConfusion hX
        dsimp only at hX
        split at hX
        · exact Except.noConfusion hX
        injection hX with hX
        subst hX
        dsimp only at henc
        subst henc
        exact b64decode_encode _ hb
  · intro w req renv
    cases hE : x402_create_solana_payment w req renv with
    | mk res renv2 =>
        cases res with
        | error e => simp only [hE]
        | ok p =>
            simp only [hE]
            obtain ⟨_, _, _, _, _, _, _, -, hp⟩ := create_ok_inv hE
            subst hp
            exact ⟨rfl, rfl⟩

/-- Witness for C5 at a small concrete payload. -/
theorem c5_flat_envelope_witness :
    b64decode (b64encode (x402_payload_to_json
      ⟨1, sExact, sSolanaDevnet, [65, 66]⟩)) =
      some (x402_payload_to_json ⟨1, sExact, sSolanaDevnet, [65, 66]⟩) :=
  c5_flat_envelope.2.1 ⟨1, sExact, sSolanaDevnet, [65, 66]⟩ 4096
    (b64encode (x402_payload_to_json ⟨1, sExact, sSolanaDevnet, [65, 66]⟩))
    (by decide) (by decide)


/-! ## Exchange accounting: every collaborator environment comes back
as a suffix of the one given (exchanges are consumed in program order,
never reissued) with bounded consumption. -/

theorem http_request_env (henv : List (Except Esp HttpResp)) :
    (http_request henv).2 <:+ henv ∧
    henv.length ≤ (http_request henv).2.length + 1 := by
  cases henv with
  | nil => exact ⟨List.suffix_rfl, by simp [http_request]⟩
  | cons e rest =>
      cases e with
      | error err => exact ⟨List.suffix_cons _ _, by simp [http_request]⟩
      | ok r => exact ⟨List.suffix_cons _ _, by simp [http_request]⟩

theorem spl_token_get_mint_program_env (renv : List (Except Esp RpcResp))
    (mint : Bytes) :
    (spl_token_get_mint_program renv mint).2 <:+ renv ∧
    renv.length ≤ (spl_token_get_mint_program renv mint).2.length + 1 := by
  unfold spl_token_get_mint_program
  split
  · exact ⟨List.suffix_rfl, Nat.le_succ _⟩
  split
  · exact ⟨List.suffix_rfl, Nat.le_succ _⟩
  repeat' split
  all_goals exact ⟨List.suffix_cons _ _, Nat.le_refl _⟩

theorem x402_fetch_recent_blockhash_env (renv : List (Except Esp RpcResp)) :
    (x402_fetch_recent_blockhash renv).2 <:+ renv ∧
    renv.length ≤ (x402_fetch_recent_blockhash renv).2.length + 1 := by
  unfold x402_fetch_recent_blockhash
  split
  · exact ⟨List.suffix_rfl, Nat.le_succ _⟩
  repeat' split
  all_goals exact ⟨List.suffix_cons _ _, Nat.le_refl _⟩

theorem x402_build_payment_transaction_env (w : solana_wallet)
    (fp rp mp tp : Bytes) (amount maxLen : Nat)
    (renv : List (Except Esp RpcResp)) :
    (x402_build_payment_transaction w fp rp mp tp amount maxLen renv).2 <:+
      renv ∧
    renv.length ≤
      (x402_build_payment_transaction w fp rp mp tp amount maxLen
        renv).2.length + 1 := by
  unfold x402_build_payment_transaction
  dsimp only [solana_wallet_get_pubkey]
  split
  · rename_i e renv2 heq
    have hb := x402_fetch_recent_blockhash_env renv
    rw [heq] at hb
    exact hb
  · rename_i bh renv2 heq
    have hb := x402_fetch_recent_blockhash_env renv
    rw [heq] at hb
    exact hb

theorem x402_create_solana_payment_env (w : solana_wallet)
    (req : x402_payment_requirements) (renv : List (Except Esp RpcResp)) :
    (x402_create_solana_payment w req renv).2 <:+ renv ∧
    renv.length ≤ (x402_create_solana_payment w req renv).2.length + 2 := by
  unfold x402_create_solana_payment
  split
  · exact ⟨List.suffix_rfl, by dsimp only; omega⟩
  split
  · exact ⟨List.suffix_rfl, by dsimp only; omega⟩
  rename_i rpk rlen hrec
  split
  · exact ⟨List.suffix_rfl, by dsimp only; omega⟩
  split
  · exact ⟨List.suffix_rfl, by dsimp only; omega⟩
  rename_i mpk mlen hasset
  split
  · exact ⟨List.suffix_rfl, by dsimp only; omega⟩
  split
  · exact ⟨List.suffix_rfl, by dsimp only; omega⟩
  rename_i amount hamt
  split
  · exact ⟨List.suffix_rfl, by dsimp only; omega⟩
  split
  · exact ⟨List.suffix_rfl, by dsimp only; omega⟩
  rename_i fpk flen hfee
  split
  · exact ⟨List.suffix_rfl, by dsimp only; omega⟩
  split
  · rename_i e renv1 hmint
    have h1 := spl_token_get_mint_program_env renv mpk
    rw [hmint] at h1
    dsimp only at h1
    exact ⟨h1.1, by dsimp only; omega⟩
  rename_i tpid renv1 hmint
  have h1 := spl_token_get_mint_program_env renv mpk
  rw [hmint] at h1
  dsimp only at h1
  split
  · rename_i e renv2 hbuild
    have h2 := x402_build_payment_transaction_env w fpk rpk mpk tpid amount
      2048 renv1
    rw [hbuild] at h2
    dsimp only at h2
    exact ⟨h2.1.trans h1.1, by dsimp only; omega⟩
  rename_i txd renv2 hbuild
  have h2 := x402_build_payment_transaction_env w fpk rpk mpk tpid amount
    2048 renv1
  rw [hbuild] at h2
  dsimp only at h2
  dsimp only
  split
  · exact ⟨h2.1.trans h1.1, by dsimp only; omega⟩
  split
  · exact ⟨h2.1.trans h1.1, by dsimp only; omega⟩
  exact ⟨h2.1.trans h1.1, by dsimp only; omega⟩

/-- C7 (amended): inside one `x402_fetch` call every exchange is issued
at most once and in program order — both environments come back as
suffixes of those given, with at most two HTTP exchanges (the initial
request plus the single paid retry) and at most two RPC exchanges (mint
owner, blockhash) consumed.  A second 402 on the retry is terminal, but
it is surfaced as an `ESP_OK` response carrying the 402, not as an
error; see the counterexample. -/
theorem c7_single_retry (wallet : solana_wallet)
    (headers body : Option Bytes) (henv : List (Except Esp HttpResp))
    (renv : List (Except Esp RpcResp)) :
    (x402_fetch wallet headers body henv renv).2.1 <:+ henv ∧
    (x402_fetch wallet headers body henv renv).2.2 <:+ renv ∧
    henv.length ≤ (x402_fetch wallet headers body henv renv).2.1.length + 2 ∧
    renv.length ≤ (x402_fetch wallet headers body henv renv).2.2.length + 2 := by
  unfold x402_fetch
  split
  · rename_i e henv1 heq1
    have h1 := http_request_env henv
    rw [heq1] at h1
    dsimp only at h1
    exact ⟨h1.1, List.suffix_rfl, by dsimp only; omega, by dsimp only; omega⟩
  rename_i st hdr bod blen henv1 heq1
  have h1 := http_request_env henv
  rw [heq1] at h1
  dsimp only at h1
  split
  · exact ⟨h1.1, List.suffix_rfl, by dsimp only; omega, by dsimp only; omega⟩
  split
  · exact ⟨h1.1, List.suffix_rfl, by dsimp only; omega, by dsimp only; omega⟩
  rename_i body402
  split
  · exact ⟨h1.1, List.suffix_rfl, by dsimp only; omega, by dsimp only; omega⟩
  rename_i reqs hreqs
  split
  · rename_i e renv1 hcr
    have hc := x402_create_solana_payment_env wallet reqs renv
    rw [hcr] at hc
    dsimp only at hc
    exact ⟨h1.1, hc.1, by dsimp only; omega, by dsimp only; omega⟩
  rename_i payload renv1 hcr
  have hc := x402_create_solana_payment_env wallet reqs renv
  rw [hcr] at hc
  dsimp only at hc
  split
  · exact ⟨h1.1, hc.1, by dsimp only; omega, by dsimp only; omega⟩
  rename_i payenc hpe
  dsimp only
  split
  · rename_i e henv2 heq2
    have h2 := http_request_env henv1
    rw [heq2] at h2
    dsimp only at h2
    exact ⟨h2.1.trans h1.1, hc.1, by dsimp only; omega, by dsimp only; omega⟩
  rename_i st2 hdr2 bod2 blen2 henv2 heq2
  have h2 := http_request_env henv1
  rw [heq2] at h2
  dsimp only at h2
  exact ⟨h2.1.trans h1.1, hc.1, by dsimp only; omega, by dsimp only; omega⟩

/-- Counterexample for C7 as frozen: on the concrete test vector the
paid retry comes back 402 again, yet the driver returns `ESP_OK` with
that 402 response (`payment_made = false`, zeroed settlement) rather
than surfacing a PaymentRejected error; both environments are fully
consumed, confirming no further exchange was issued. -/
theorem c7_counterexample :
    x402_fetch cvWallet (some []) none cvHenv cvRenv =
      (.ok { status_code := 402
             headers := hContentLength ++ [58, 32, 48, 13, 10]
             body := none
             body_len := 0
             payment_made := false
             settlement := settlementZero }, ([], [])) := by
  unfold x402_fetch
  rw [cvHttp1]
  dsimp only
  rw [if_neg (by decide)]
  rw [cvRequirements]
  dsimp only
  rw [cvCreate]
  dsimp only
  rw [cvPayEncode]
  dsimp only
  rw [cvHttp2]
  dsimp only
  rw [cvNoHeader]

/-- C6 (amended): the driver performs no `/supported` probe — when the
parsed requirements carry no fee payer, `x402_create_solana_payment`
fails with a generic fatal error before issuing any RPC exchange (the
environment comes back untouched); the repository's
`x402_query_fee_payer` helper, which the driver never calls, succeeds
only when some advertised kind's `network` equals the requested one
exactly (its `extra.feePayer` being returned truncated to 63 bytes). -/
theorem c6_fee_payer_required (wallet : solana_wallet)
    (req : x402_payment_requirements) (renv : List (Except Esp RpcResp))
    (hfee : req.fee_payer = []) :
    (∃ e, x402_create_solana_payment wallet req renv = (.error e, renv)) ∧
    (∀ (resp : Except Esp HttpResp) (network fp : Bytes),
      x402_query_fee_payer resp network 64 = .ok fp →
      ∃ (r : HttpResp) (root : Json) (kinds : List Json) (kind : Json)
        (fpFull : Bytes),
        resp = .ok r ∧
        cJSON_Parse (r.body.getD []) = some root ∧
        jArr (jGet (some root) kKinds) = some kinds ∧
        kind ∈ kinds ∧
        jStr (jGet (some kind) kNetwork) = some network ∧
        jStr (jGet (jGet (some kind) kExtra) kFeePayer) = some fpFull ∧
        fp = fpFull.take 63) := by
  constructor
  · unfold x402_create_solana_payment
    split
    · exact ⟨.invalid_state, rfl⟩
    split
    · exact ⟨.fail, rfl⟩
    split
    · exact ⟨.fail, rfl⟩
    split
    · exact ⟨.fail, rfl⟩
    split
    · exact ⟨.fail, rfl⟩
    split
    · exact ⟨_, rfl⟩
    rw [if_pos (by simp [hfee])]
    exact ⟨.fail, rfl⟩
  · intro resp network fp h
    unfold x402_query_fee_payer at h
    split at h
    · exact Except.noConfusion h
    rename_i r
    split at h
    · exact Except.noConfusion h
    split at h
    · exact Except.noConfusion h
    split at h
    · exact Except.noConfusion h
    rename_i root hparse
    unfold x402_query_fee_payer_json at h
    split at h
    · exact Except.noConfusion h
    rename_i kinds hkinds
    split at h
    · exact Except.noConfusion h
    split at h
    · exact Except.noConfusion h
    rename_i kind hfind
    split at h
    · exact Except.noConfusion h
    rename_i fpFull hfp
    injection h with h
    have hmem := List.mem_of_find?_eq_some hfind
    have hpred := List.find?_some hfind
    refine ⟨r, root, kinds, kind, fpFull, rfl, hparse, hkinds, hmem, ?_,
      hfp, h.symm⟩
    cases hn : jStr (jGet (some kind) kNetwork) with
    | none =>
        rw [hn] at hpred
        exact absurd hpred (by simp)
    | some n =>
        rw [hn] at hpred
        dsimp only at hpred
        exact congrArg some (eq_of_beq hpred)

/-- Witness for C6: a concrete requirements record with an empty fee
payer fails before touching the available RPC environment, and the
helper's success-implies-match property holds. -/
theorem c6_fee_payer_required_witness :
    (∃ e, x402_create_solana_payment ⟨[], []⟩
        { recipient := [], network := [], asset := [], price_amount := [],
          price_currency := [], fee_payer := [], valid := true }
        [.ok { status := 200, body := some [] }] =
      (.error e, [.ok { status := 200, body := some [] }])) ∧
    (∀ (resp : Except Esp HttpResp) (network fp : Bytes),
      x402_query_fee_payer resp network 64 = .ok fp →
      ∃ (r : HttpResp) (root : Json) (kinds : List Json) (kind : Json)
        (fpFull : Bytes),
        resp = .ok r ∧
        cJSON_Parse (r.body.getD []) = some root ∧
        jArr (jGet (some root) kKinds) = some kinds ∧
        kind ∈ kinds ∧
        jStr (jGet (some kind) kNetwork) = some network ∧
        jStr (jGet (jGet (some kind) kExtra) kFeePayer) = some fpFull ∧
        fp = fpFull.take 63) :=
  c6_fee_payer_required ⟨[], []⟩
    { recipient := [], network := [], asset := [], price_amount := [],
      price_currency := [], fee_payer := [], valid := true }
    [.ok { status := 200, body := some [] }] rfl

/-- Counterexample for C6 as frozen: a 402 body without
`extra.feePayer` makes the driver fail immediately with `ESP_FAIL` —
the queued `/supported` response (which does advertise a matching
`solana-devnet` fee payer, as `x402_query_fee_payer` applied to it
shows) is left unconsumed in the HTTP environment and the RPC
environment is untouched: no probe, no fallback, and no dedicated
error is issued. -/
theorem c6_counterexample :
    x402_fetch cvWallet none none
      [.ok { status := 402, content_length := 124, payment_response := none,
             body := some cvBody402NoFee },
       .ok { status := 200, content_length := 120, payment_response := none,
             body := some cvSuppBody }] cvRenv =
      (.error .fail,
       ([.ok { status := 200, content_length := 120,
               payment_response := none, body := some cvSuppBody }],
        cvRenv)) ∧
    x402_query_fee_payer
      (.ok { status := 200, content_length := 120, payment_response := none,
             body := some cvSuppBody }) sSolanaDevnet 64 =
      .ok (List.replicate 31 49 ++ [53]) := by
  constructor
  · decide
  · decide

end SolanaX402
